import Mathlib

/-!
# EdgeTranslate: the draggable controller

A shallow embedding of `src/content/display/library/moveable/draggable.js`.

Conventions of the embedding

* JavaScript numbers are `Num`, the IEEE 754 doubles: a finite double is the integer
  `k` of `Num.units k`, counted in units of `2^-1074` (every finite double is such a
  multiple, of at most 53 significant bits and of magnitude below `2^2098` units), or it
  is one of the two infinities or NaN. Sums and differences are rounded to nearest, ties
  to even, and overflow to the infinities. The two zeros are one value: `drag` and
  `request` only add, subtract and compare with `>= 0`, which do not tell them apart.
  `Num.fin i` is the double of the integer `i`.
* JavaScript values that reach the controller are `Val`: undefined, null, a boolean or a
  number. Strings and objects as coordinates are outside the value universe.
* An array is an `Arr`: its elements and the identity of the array object. Every array
  literal the controller evaluates takes the next own identity from the counter `fresh`.
* A method is a function from the controller state to an `Outcome`: the state it leaves,
  the effects it had on its collaborators in order (`Call`), and how it completed.
* The host callbacks act on the controller only through the context they receive: the
  `dragStart` callback is a function from its payload to the list of `set` and `stop`
  calls it makes; the `drag` and `dragEnd` callbacks receive no context.
-/

namespace Draggable

/-! ## Numbers and values -/

/-- A JavaScript number: a finite double `k * 2^-1074`, an infinity, or NaN. -/
inductive Num where
  | units (k : Int)
  | posInf
  | negInf
  | nan
  deriving DecidableEq, Repr

namespace Num

/-- The greatest shift `t` below 4096 with `2^53 <= a >>> t`, found bit by bit, for a
natural number `a` of at least 54 bits. The search is exact for every `a` below
`2^4149`; the exact sum of two doubles is below `2^2099` units. -/
def topShift (a : Nat) : Nat :=
  [2048, 1024, 512, 256, 128, 64, 32, 16, 8, 4, 2, 1].foldl
    (fun t k => if 2 ^ 53 ≤ a >>> (t + k) then t + k else t) 0

/-- The number of low bits of `a` that do not fit into 53 significant bits. -/
def dropBits (a : Nat) : Nat := if a < 2 ^ 53 then 0 else topShift a + 1

/-- The magnitude `a` rounded to 53 significant bits, to nearest, ties to even. -/
def roundNat (a : Nat) : Nat :=
  let s := dropBits a
  let q := a >>> s
  let rem := a - (q <<< s)
  let half := (1 <<< s) / 2
  let q2 := if half < rem ∨ (rem = half ∧ 0 < s ∧ q % 2 = 1) then q + 1 else q
  q2 <<< s

/-- The double nearest to the exact value of `n` units: an infinity when the rounded
magnitude reaches `2^1024`, that is `2^2098` units. -/
def round (n : Int) : Num :=
  if (1 <<< 2098) ≤ roundNat n.natAbs then (if n < 0 then negInf else posInf)
  else if n < 0 then units (-(roundNat n.natAbs : Int))
  else units (roundNat n.natAbs : Int)

/-- The double of the integer `i`. -/
def fin (i : Int) : Num := units (i * ((1 <<< 1074 : Nat) : Int))

/-- The sum of two numbers. -/
def add : Num → Num → Num
  | nan, _ => nan
  | _, nan => nan
  | posInf, negInf => nan
  | negInf, posInf => nan
  | posInf, _ => posInf
  | _, posInf => posInf
  | negInf, _ => negInf
  | _, negInf => negInf
  | units a, units b => round (a + b)

/-- The negation of a number. -/
def neg : Num → Num
  | units a => units (-a)
  | posInf => negInf
  | negInf => posInf
  | nan => nan

/-- The difference of two numbers. -/
def sub (a b : Num) : Num := add a (neg b)

/-- The comparison `n >= 0`. -/
def ge0 : Num → Bool
  | units a => decide (0 ≤ a)
  | posInf => true
  | negInf => false
  | nan => false

/-- The comparison `n < 0`. -/
def lt0 : Num → Bool
  | units a => decide (a < 0)
  | posInf => false
  | negInf => true
  | nan => false

end Num

/-- A JavaScript value. -/
inductive Val where
  | undefined
  | null
  | bool (b : Bool)
  | num (n : Num)
  deriving DecidableEq, Repr

/-- The conversion ToNumber. -/
def toNumber : Val → Num
  | .undefined => .nan
  | .null => .fin 0
  | .bool true => .fin 1
  | .bool false => .fin 0
  | .num n => n

/-- The operator `a + b` on the value universe (no strings: always numeric). -/
def jsAdd (a b : Val) : Val := .num ((toNumber a).add (toNumber b))

/-- The operator `a - b`. -/
def jsSub (a b : Val) : Val := .num ((toNumber a).sub (toNumber b))

/-- The test `v !== undefined`. -/
def isDefined : Val → Bool
  | .undefined => false
  | _ => true

/-- The identity of an array object: allocated by the controller, or by the host. -/
inductive Ref where
  | own (n : Nat)
  | host (n : Nat)
  deriving DecidableEq, Repr

/-- An array object. -/
structure Arr where
  ref : Ref
  elems : List Val
  deriving DecidableEq, Repr

/-- The element read `a[i]`: undefined past the end. -/
def Arr.at (a : Arr) (i : Nat) : Val := a.elems.getD i .undefined

/-! ## Bounds -/

/-- The four sides, in the order the object literal of `drag` lists them. -/
inductive Side where
  | left
  | top
  | right
  | bottom
  deriving DecidableEq, Repr

/-- An object seen through its `left`, `top`, `right` and `bottom` properties; an absent
property reads as undefined. -/
structure Sides where
  left : Val
  top : Val
  right : Val
  bottom : Val
  deriving DecidableEq, Repr

/-- The object `{}`. -/
def emptyObject : Sides := ⟨.undefined, .undefined, .undefined, .undefined⟩

/-- The `bounds` option: a primitive value (undefined and null among them) or an object. -/
inductive BoundsOption where
  | prim (v : Val)
  | obj (o : Sides)
  deriving DecidableEq, Repr

/-- The value of `boundsOption || {}` seen through its four properties: a falsy primitive
is replaced by `{}`, and a truthy primitive has none of the four properties. -/
def orEmptyObject : BoundsOption → Sides
  | .obj o => o
  | .prim _ => emptyObject

/-- The static method `draggable.parseBounds`. -/
def parseBounds (boundsOption : BoundsOption) : Sides :=
  let boundsOption := orEmptyObject boundsOption
  { left := if isDefined boundsOption.left then boundsOption.left else .num .negInf
    top := if isDefined boundsOption.top then boundsOption.top else .num .negInf
    right := if isDefined boundsOption.right then boundsOption.right else .num .posInf
    bottom := if isDefined boundsOption.bottom then boundsOption.bottom else .num .posInf }

/-! ## The controller and its collaborators -/

/-- A mouse event, as far as the controller reads it. -/
structure MouseEvent where
  pageX : Num
  pageY : Num
  clientX : Num
  clientY : Num
  deriving DecidableEq, Repr

/-- What the target element and the document answer at a press:
`getBoundingClientRect().left`, `.top`, `scrollLeft`, `scrollTop`, `offsetWidth`,
`offsetHeight`. -/
structure Geometry where
  rectLeft : Num
  rectTop : Num
  scrollLeft : Num
  scrollTop : Num
  offsetWidth : Num
  offsetHeight : Num
  deriving DecidableEq, Repr

/-- The template string `translate(${x}px,${y}px)`, kept as its two interpolated values. -/
structure Transform where
  x : Val
  y : Val
  deriving DecidableEq, Repr

/-- The object handed to the `dragStart` callback, without its `set` and `stop` functions
(see `CtxAction`); the request path passes neither an event nor coordinates. -/
structure StartPayload where
  inputEvent : Option MouseEvent
  clientX : Val
  clientY : Val
  pageX : Val
  pageY : Val
  deriving DecidableEq, Repr

/-- The object handed to the `drag` callback; the request path passes neither `inputEvent`
nor `delta`. -/
structure DragPayload where
  inputEvent : Option MouseEvent
  target : Nat
  transform : Transform
  translate : Arr
  delta : Option Arr
  deriving DecidableEq, Repr

/-- The object handed to the `dragEnd` callback. -/
structure EndPayload where
  translate : Arr
  deriving DecidableEq, Repr

/-- A call the `dragStart` callback makes on the context it receives. -/
inductive CtxAction where
  | set (position : Arr)
  | stop
  deriving DecidableEq, Repr

/-- The `handlers` object: each callback may be absent. -/
structure Handlers where
  dragStart : Option (StartPayload → List CtxAction)
  drag : Bool
  dragEnd : Bool

/-- The `options` object. -/
structure Options where
  bounds : BoundsOption
  deriving DecidableEq, Repr

/-- An effect of the controller on its collaborators. -/
inductive Call where
  | preventDefault (e : MouseEvent)
  | styleTransform (t : Transform)
  | dragStart (p : StartPayload)
  | drag (p : DragPayload)
  | dragEnd (p : EndPayload)
  | bound (direction : Side) (value : Val)
  deriving DecidableEq, Repr

/-- The bag `this.store`; a key that was never written reads as undefined (`none`). -/
structure Store where
  startTranslate : Option Arr
  startMouse : Option Arr
  startElement : Option Sides
  currentTranslate : Option Arr
  deriving DecidableEq, Repr

/-- The state of a controller. `options` and `handlers` are `none` when the constructor
received undefined, `bounds` is `none` when the field holds undefined. `downSubscribed`
and `moveSubscribed` say whether `dragStartHandler` and `dragHandler` are registered
listeners (registering the same function twice registers it once), `upListeners` counts
the anonymous mouseup listeners, `fresh` is the next own array identity. -/
structure Controller where
  targetElement : Nat
  options : Option Options
  handlers : Option Handlers
  dragging : Bool
  store : Store
  bounds : Option Sides
  downSubscribed : Bool
  moveSubscribed : Bool
  upListeners : Nat
  fresh : Nat

/-- How a call completed. -/
inductive Completion (α : Type) where
  | normal (v : α)
  | throw
  deriving DecidableEq, Repr

/-- What a method leaves behind. -/
structure Outcome (α : Type) where
  st : Controller
  calls : List Call
  ret : Completion α

/-- The array an array literal evaluates to in state `c`. -/
def newArr (c : Controller) (elems : List Val) : Arr := ⟨.own c.fresh, elems⟩

/-- The state after an array literal was evaluated. -/
def bump (c : Controller) : Controller := { c with fresh := c.fresh + 1 }

/-! ## Construction -/

/-- The method `dragEnd`: it registers one more mouseup listener. -/
def dragEnd (c : Controller) : Controller := { c with upListeners := c.upListeners + 1 }

/-- The method `setBounds`: it writes the field and returns nothing (undefined). -/
def setBounds (c : Controller) (boundsOption : BoundsOption) : Controller × Option Sides :=
  ({ c with bounds := some (parseBounds boundsOption) }, none)

/-- The method `dragInitiate`. -/
def dragInitiate (c : Controller) : Outcome Unit :=
  let c := dragEnd c
  match c.options with
  | none => ⟨c, [], .throw⟩
  | some options =>
    let r := setBounds c options.bounds
    let c := { r.1 with bounds := r.2 }
    let c := { c with downSubscribed := true }
    ⟨c, [], .normal ()⟩

/-- The constructor. -/
def new (targetElement : Nat) (options : Option Options) (handlers : Option Handlers) :
    Outcome Unit :=
  dragInitiate
    { targetElement := targetElement
      options := options
      handlers := handlers
      dragging := false
      store := ⟨none, none, none, none⟩
      bounds := some emptyObject
      downSubscribed := false
      moveSubscribed := false
      upListeners := 0
      fresh := 0 }

/-! ## The gesture -/

/-- The calls the `dragStart` callback makes on the context of a press, in order:
`set` copies the first two elements of `position` into a new array and writes the
transform of the target element, `stop` clears the dragging flag. -/
def startActions (c : Controller) : List CtxAction → Outcome Unit
  | [] => ⟨c, [], .normal ()⟩
  | .set position :: rest =>
    let startTranslate := newArr c [position.at 0, position.at 1]
    let c := bump c
    let c := { c with store := { c.store with startTranslate := some startTranslate } }
    let o := startActions c rest
    ⟨o.st, .styleTransform ⟨position.at 0, position.at 1⟩ :: o.calls, o.ret⟩
  | .stop :: rest => startActions { c with dragging := false } rest

/-- The object literal that `dragStart` hands to the callback, without `set` and `stop`. -/
def pressPayload (e : MouseEvent) : StartPayload :=
  { inputEvent := some e
    clientX := .num e.clientX
    clientY := .num e.clientY
    pageX := .num e.pageX
    pageY := .num e.pageY }

/-- The first statements of `dragStart`, up to the callback: the dragging flag is set and
the start values are stored. -/
def dragStartStore (c : Controller) (e : MouseEvent) (g : Geometry) : Controller :=
  let c := { c with dragging := true }
  let startTranslate := newArr c []
  let c := bump c
  let c := { c with store := { c.store with startTranslate := some startTranslate } }
  let startMouse := newArr c [.num e.pageX, .num e.pageY]
  let c := bump c
  let c := { c with store := { c.store with startMouse := some startMouse } }
  let offset := newArr c
    [jsAdd (.num g.rectLeft) (.num g.scrollLeft), jsAdd (.num g.rectTop) (.num g.scrollTop)]
  let c := bump c
  let startElement : Sides :=
    { left := offset.at 0
      top := offset.at 1
      right := jsAdd (offset.at 0) (.num g.offsetWidth)
      bottom := jsAdd (offset.at 1) (.num g.offsetHeight) }
  { c with store := { c.store with startElement := some startElement } }

/-- The last statements of `dragStart`: the callback, if registered, and the subscription
of the move handler if the dragging flag is still set. -/
def dragStartNotify (c : Controller) (e : MouseEvent) : Outcome Unit :=
  match c.handlers with
  | none => ⟨c, [], .throw⟩
  | some handlers =>
    let o : Outcome Unit :=
      match handlers.dragStart with
      | none => ⟨c, [], .normal ()⟩
      | some f =>
        let o := startActions c (f (pressPayload e))
        ⟨o.st, .dragStart (pressPayload e) :: o.calls, o.ret⟩
    let c := o.st
    let c := if c.dragging then { c with moveSubscribed := true } else c
    ⟨c, o.calls, .normal ()⟩

/-- The method `dragStart`, the mousedown handler. -/
def dragStart (c : Controller) (e : MouseEvent) (g : Geometry) : Outcome Unit :=
  dragStartNotify (dragStartStore c e g) e

/-- The properties of the object `currentElement`, in the order `for ... in` visits them. -/
def entries (currentElement : Sides) : List (Side × Val) :=
  [(.left, currentElement.left), (.top, currentElement.top),
   (.right, currentElement.right), (.bottom, currentElement.bottom)]

/-- The loop of `drag` over the properties of `currentElement`: the first property whose
value is `>= 0`, if there is one. -/
def boundLoop : List (Side × Val) → Option (Side × Val)
  | [] => none
  | (direction, value) :: rest =>
    if (toNumber value).ge0 then some (direction, value) else boundLoop rest

/-- The method `drag`, the mousemove handler. -/
def drag (c : Controller) (e : MouseEvent) : Outcome Unit :=
  match c.store.startMouse with
  | none => ⟨c, [.preventDefault e], .throw⟩
  | some startMouse =>
    let delta := newArr c
      [jsSub (.num e.pageX) (startMouse.at 0), jsSub (.num e.pageY) (startMouse.at 1)]
    let c := bump c
    match c.store.startTranslate with
    | none => ⟨c, [.preventDefault e], .throw⟩
    | some startTranslate =>
      let currentTranslate := newArr c
        [jsAdd (delta.at 0) (startTranslate.at 0), jsAdd (delta.at 1) (startTranslate.at 1)]
      let c := bump c
      match c.bounds with
      | none => ⟨c, [.preventDefault e], .throw⟩
      | some bounds =>
        match c.store.startElement with
        | none => ⟨c, [.preventDefault e], .throw⟩
        | some startElement =>
          let currentElement : Sides :=
            { left := jsSub bounds.left (jsAdd (delta.at 0) startElement.left)
              top := jsSub bounds.top (jsAdd (delta.at 1) startElement.top)
              right := jsSub (jsAdd (delta.at 0) startElement.right) bounds.right
              bottom := jsSub (jsAdd (delta.at 1) startElement.bottom) bounds.bottom }
          match boundLoop (entries currentElement) with
          | some (direction, value) =>
            ⟨c, [.preventDefault e, .bound direction value], .normal ()⟩
          | none =>
            let stored := newArr c [currentTranslate.at 0, currentTranslate.at 1]
            let c := bump c
            let c := { c with store := { c.store with currentTranslate := some stored } }
            match c.handlers with
            | none => ⟨c, [.preventDefault e], .throw⟩
            | some handlers =>
              if handlers.drag then
                ⟨c, [.preventDefault e,
                     .drag { inputEvent := some e
                             target := c.targetElement
                             transform := ⟨stored.at 0, stored.at 1⟩
                             translate := stored
                             delta := some delta }], .normal ()⟩
              else ⟨c, [.preventDefault e], .normal ()⟩

/-- The mouseup listener that the method `dragEnd` registers. -/
def mouseupListener (c : Controller) : Outcome Unit :=
  if c.dragging then
    let c := { c with dragging := false }
    let c := { c with moveSubscribed := false }
    match c.handlers with
    | none => ⟨c, [], .throw⟩
    | some handlers =>
      if handlers.dragEnd then
        match c.store.currentTranslate with
        | none => ⟨c, [], .throw⟩
        | some currentTranslate =>
          let translate := newArr c [currentTranslate.at 0, currentTranslate.at 1]
          let c := bump c
          ⟨c, [.dragEnd ⟨translate⟩], .normal ()⟩
      else ⟨c, [], .normal ()⟩
  else ⟨c, [], .normal ()⟩

/-! ## The request -/

/-- The calls the `dragStart` callback makes on the context of a request: `set` stores
the array it is given, `stop` clears the dragging flag. -/
def requestActions (c : Controller) : List CtxAction → Controller
  | [] => c
  | .set position :: rest =>
    requestActions { c with store := { c.store with startTranslate := some position } } rest
  | .stop :: rest => requestActions { c with dragging := false } rest

/-- The replay of `request` once `translate` is computed (the part of the method after
the first statement). -/
def requestReplay (c : Controller) (translate : Arr) : Outcome Bool :=
  let c := { c with dragging := true }
  let startTranslate := newArr c []
  let c := bump c
  let c := { c with store := { c.store with startTranslate := some startTranslate } }
  match c.handlers with
  | none => ⟨c, [], .throw⟩
  | some handlers =>
    let payload : StartPayload := ⟨none, .undefined, .undefined, .undefined, .undefined⟩
    let started : Controller × List Call :=
      match handlers.dragStart with
      | none => (c, [])
      | some f => (requestActions c (f payload), [.dragStart payload])
    let c := started.1
    let dragged : List Call :=
      if handlers.drag then
        [.drag { inputEvent := none
                 target := c.targetElement
                 transform := ⟨translate.at 0, translate.at 1⟩
                 translate := translate
                 delta := none }]
      else []
    let c := { c with dragging := false }
    if handlers.dragEnd then
      let copy := newArr c [translate.at 0, translate.at 1]
      let c := bump c
      ⟨c, started.2 ++ dragged ++ [.dragEnd ⟨copy⟩], .normal true⟩
    else ⟨c, started.2 ++ dragged, .normal true⟩

/-- A `draggableParameter` object; an absent property reads as undefined. -/
structure DraggableParameter where
  x : Val
  y : Val
  deltaX : Val
  deltaY : Val
  deriving DecidableEq, Repr

/-- The method `request`. -/
def request (c : Controller) (draggableParameter : DraggableParameter) : Outcome Bool :=
  if isDefined draggableParameter.x && isDefined draggableParameter.y then
    requestReplay (bump c) (newArr c [draggableParameter.x, draggableParameter.y])
  else if isDefined draggableParameter.deltaX && isDefined draggableParameter.deltaY then
    match c.store.startTranslate with
    | none => ⟨c, [], .throw⟩
    | some startTranslate =>
      requestReplay (bump c)
        (newArr c [jsAdd (startTranslate.at 0) draggableParameter.deltaX,
                   jsAdd (startTranslate.at 1) draggableParameter.deltaY])
  else ⟨c, [], .normal false⟩

/-! ## The host event system -/

/-- One outcome after another: the calls in order; a throw of either is kept (an
exception of a listener is reported and does not stop later notifications). -/
def Outcome.andThen (o : Outcome Unit) (f : Controller → Outcome Unit) : Outcome Unit :=
  let o2 := f o.st
  ⟨o2.st, o.calls ++ o2.calls,
    match o.ret with
    | .throw => .throw
    | .normal _ => o2.ret⟩

/-- A press on the target element: delivered to `dragStartHandler` if registered. -/
def mousedown (c : Controller) (e : MouseEvent) (g : Geometry) : Outcome Unit :=
  if c.downSubscribed then dragStart c e g else ⟨c, [], .normal ()⟩

/-- A move anywhere in the document: delivered to `dragHandler` if registered. -/
def mousemove (c : Controller) (e : MouseEvent) : Outcome Unit :=
  if c.moveSubscribed then drag c e else ⟨c, [], .normal ()⟩

/-- A sequence of moves. -/
def mousemoves (c : Controller) : List MouseEvent → Outcome Unit
  | [] => ⟨c, [], .normal ()⟩
  | e :: rest => (mousemove c e).andThen (fun c => mousemoves c rest)

/-- The mouseup listener run `n` times in a row. -/
def mouseupRun : Nat → Controller → Outcome Unit
  | 0, c => ⟨c, [], .normal ()⟩
  | n + 1, c => (mouseupListener c).andThen (mouseupRun n)

/-- A release anywhere in the document: delivered to every registered mouseup listener. -/
def mouseup (c : Controller) : Outcome Unit := mouseupRun c.upListeners c

/-! ## Vocabulary of the properties -/

/-- The position of a side in the order left, top, right, bottom. -/
def Side.idx : Side → Nat
  | .left => 0
  | .top => 1
  | .right => 2
  | .bottom => 3

/-- The violation scalar of a side for the move delta `(dx, dy)`, bounds `b` and start
element rectangle `r`, as the specification words it. -/
def violation (b r : Sides) (dx dy : Val) : Side → Val
  | .left => jsSub b.left (jsAdd dx r.left)
  | .top => jsSub b.top (jsAdd dy r.top)
  | .right => jsSub (jsAdd dx r.right) b.right
  | .bottom => jsSub (jsAdd dy r.bottom) b.bottom

/-- The payloads of the `drag` callback invocations among the calls, in order. -/
def dragPayloads : List Call → List DragPayload
  | [] => []
  | .drag p :: rest => p :: dragPayloads rest
  | _ :: rest => dragPayloads rest

/-- The payloads of the `dragEnd` callback invocations among the calls, in order. -/
def endPayloads : List Call → List EndPayload
  | [] => []
  | .dragEnd p :: rest => p :: endPayloads rest
  | _ :: rest => endPayloads rest

/-- The payloads of the `dragStart` callback invocations among the calls, in order. -/
def startPayloads : List Call → List StartPayload
  | [] => []
  | .dragStart p :: rest => p :: startPayloads rest
  | _ :: rest => startPayloads rest

/-! ## A concrete controller: the scenario of the specification

Bounds `{right: 100}`, the element at left 0 and right 50 (top 0, bottom 20), a press at
pointer (10, 10), and a `dragStart` callback that sets the start translate to `[0, 0]`. -/

/-- The handlers of the scenario: all three registered, `dragStart` calls `set([0, 0])`. -/
def scenarioHandlers : Handlers :=
  { dragStart := some (fun _ => [.set ⟨.host 0, [.num (.fin 0), .num (.fin 0)]⟩])
    drag := true
    dragEnd := true }

/-- The handlers of the scenario with a `dragStart` callback that also calls `stop()`. -/
def stoppingHandlers : Handlers :=
  { dragStart := some (fun _ => [.set ⟨.host 0, [.num (.fin 0), .num (.fin 0)]⟩, .stop])
    drag := true
    dragEnd := true }

/-- The options of the scenario. -/
def scenarioOptions : Options :=
  ⟨.obj ⟨.undefined, .undefined, .num (.fin 100), .undefined⟩⟩

/-- The geometry of the scenario at the press. -/
def scenarioGeometry : Geometry :=
  ⟨.fin 0, .fin 0, .fin 0, .fin 0, .fin 50, .fin 20⟩

/-- A mouse event at page position `(x, y)`. -/
def eventAt (x y : Int) : MouseEvent := ⟨.fin x, .fin y, .fin x, .fin y⟩

/-- The controller of the scenario as the constructor leaves it. -/
def scenarioNew : Controller := (new 7 (some scenarioOptions) (some scenarioHandlers)).st

/-- The controller of the scenario after a call of `setBounds` with the bounds option. -/
def scenarioIdle : Controller := (setBounds scenarioNew scenarioOptions.bounds).1

/-- The controller of the scenario after the press at (10, 10). -/
def scenarioPressed : Controller := (mousedown scenarioIdle (eventAt 10 10) scenarioGeometry).st

/-! ## Vocabulary of the event and comparison properties -/

/-- The property read `o[direction]`. -/
def Sides.get (o : Sides) : Side → Val
  | .left => o.left
  | .top => o.top
  | .right => o.right
  | .bottom => o.bottom

/-- The comparison `a < b` of two numbers: false when either is NaN. -/
def Num.lt : Num → Num → Bool
  | .nan, _ => false
  | _, .nan => false
  | .units a, .units b => decide (a < b)
  | .units _, .posInf => true
  | .units _, .negInf => false
  | .posInf, _ => false
  | .negInf, .negInf => false
  | .negInf, _ => true

/-- The operator `a < b` on the value universe. -/
def jsLt (a b : Val) : Bool := (toNumber a).lt (toNumber b)

/-- The shifted rectangle lies strictly inside the bounds on all four sides, as the
property words it. -/
def strictlyInside (b r : Sides) (dx dy : Val) : Bool :=
  jsLt b.left (jsAdd r.left dx) && jsLt b.top (jsAdd r.top dy)
    && jsLt (jsAdd r.right dx) b.right && jsLt (jsAdd r.bottom dy) b.bottom

/-- What the host does with a controller: a notification of its event system, or a call
of `request`. -/
inductive Event where
  | press (e : MouseEvent) (g : Geometry)
  | move (e : MouseEvent)
  | release
  | request (p : DraggableParameter)
  deriving DecidableEq, Repr

/-- The outcome of one event; the boolean that `request` returns is dropped. -/
def deliver (c : Controller) : Event → Outcome Unit
  | .press e g => mousedown c e g
  | .move e => mousemove c e
  | .release => mouseup c
  | .request p =>
    ⟨(request c p).st, (request c p).calls,
      match (request c p).ret with
      | .normal _ => .normal ()
      | .throw => .throw⟩

/-- The outcome of a sequence of events. -/
def run (c : Controller) : List Event → Outcome Unit
  | [] => ⟨c, [], .normal ()⟩
  | ev :: rest => (deliver c ev).andThen (fun c => run c rest)

/-- The shifted edge of the start rectangle `r` on a side, for the move delta
`(dx, dy)`, as `drag` computes it. -/
def shifted (r : Sides) (dx dy : Val) : Side → Val
  | .left => jsAdd dx r.left
  | .top => jsAdd dy r.top
  | .right => jsAdd dx r.right
  | .bottom => jsAdd dy r.bottom

/-- The double `1e308`, that is `5010420900022432 * 2^971`. -/
def Num.e308 : Num := .units (5010420900022432 * ((1 <<< 2045 : Nat) : Int))

/-- A mouse event at the page position `(x, y)` given by two doubles. -/
def eventAtNum (x y : Num) : MouseEvent := ⟨x, y, x, y⟩

/-- The controller of the scenario with its bounds set to `parseBounds({})`, after a
press at the page position `(-1e308, 10)`. -/
def scenarioFarPressed : Controller :=
  (mousedown (setBounds scenarioNew (.obj emptyObject)).1
    (eventAtNum (Num.neg Num.e308) (.fin 10)) scenarioGeometry).st

/-- The controller of the scenario after the press at (10, 10), with the bounds
`parseBounds({right: NaN})`. -/
def scenarioNaNBound : Controller :=
  (setBounds scenarioPressed (.obj ⟨.undefined, .undefined, .num .nan, .undefined⟩)).1

/-- The handlers of a host whose `dragStart` callback sets the start translate to
`[100, 200]`; all three callbacks registered. -/
def overwritingHandlers : Handlers :=
  { dragStart := some (fun _ => [.set ⟨.host 1, [.num (.fin 100), .num (.fin 200)]⟩])
    drag := true
    dragEnd := true }

/-- The controller of the scenario after the press, with `overwritingHandlers`. -/
def scenarioOverwriting : Controller :=
  { scenarioPressed with handlers := some overwritingHandlers }

/-! ## Bounds resolution -/

/-- C1: `parseBounds` returns a record with all four sides populated. A side that the
option holds (not undefined) is returned unchanged, an absent side becomes negative
infinity for left and top and positive infinity for right and bottom, and an option that
is no object (undefined and null among them) gives the four infinite sides. -/
theorem parseBounds_resolves (boundsOption : BoundsOption) :
    (isDefined (parseBounds boundsOption).left = true
      ∧ isDefined (parseBounds boundsOption).top = true
      ∧ isDefined (parseBounds boundsOption).right = true
      ∧ isDefined (parseBounds boundsOption).bottom = true)
    ∧ (∀ o : Sides,
        (parseBounds (.obj o)).left = (if o.left = .undefined then .num .negInf else o.left)
        ∧ (parseBounds (.obj o)).top = (if o.top = .undefined then .num .negInf else o.top)
        ∧ (parseBounds (.obj o)).right
            = (if o.right = .undefined then .num .posInf else o.right)
        ∧ (parseBounds (.obj o)).bottom
            = (if o.bottom = .undefined then .num .posInf else o.bottom))
    ∧ (∀ v : Val,
        parseBounds (.prim v) = ⟨.num .negInf, .num .negInf, .num .posInf, .num .posInf⟩) := by
  refine ⟨?_, ?_, ?_⟩
  · cases boundsOption with
    | prim v => simp [parseBounds, orEmptyObject, emptyObject, isDefined]
    | obj o =>
      obtain ⟨l, t, r, b⟩ := o
      refine ⟨?_, ?_, ?_, ?_⟩
      · cases l <;> simp [parseBounds, orEmptyObject, isDefined]
      · cases t <;> simp [parseBounds, orEmptyObject, isDefined]
      · cases r <;> simp [parseBounds, orEmptyObject, isDefined]
      · cases b <;> simp [parseBounds, orEmptyObject, isDefined]
  · intro o
    obtain ⟨l, t, r, b⟩ := o
    refine ⟨?_, ?_, ?_, ?_⟩
    · cases l <;> simp [parseBounds, orEmptyObject, isDefined]
    · cases t <;> simp [parseBounds, orEmptyObject, isDefined]
    · cases r <;> simp [parseBounds, orEmptyObject, isDefined]
    · cases b <;> simp [parseBounds, orEmptyObject, isDefined]
  · intro v
    simp [parseBounds, orEmptyObject, emptyObject, isDefined]

/-- C2: the constructor does not leave `parseBounds(options.bounds)` in the `bounds`
field. `setBounds` writes the parsed bounds and returns nothing, and `dragInitiate`
assigns that return value to the field: for every target, options object and handlers
the constructor completes with `bounds` undefined, as it does for the bounds option
`{right: 100}`, whose parsed bounds are four definite numbers. -/
theorem constructor_leaves_bounds_undefined :
    (new 7 (some scenarioOptions) (some scenarioHandlers)).st.bounds = none
    ∧ parseBounds scenarioOptions.bounds
        = ⟨.num .negInf, .num .negInf, .num (.fin 100), .num .posInf⟩
    ∧ (setBounds scenarioNew scenarioOptions.bounds).1.bounds
        = some (parseBounds scenarioOptions.bounds)
    ∧ ∀ (targetElement : Nat) (options : Options) (handlers : Option Handlers),
        (new targetElement (some options) handlers).ret = .normal ()
        ∧ (new targetElement (some options) handlers).st.bounds = none := by
  refine ⟨rfl, rfl, rfl, ?_⟩
  intro targetElement options handlers
  exact ⟨rfl, rfl⟩

/-! ## Release while idle -/

/-- The mouseup listener does nothing when the dragging flag is false. -/
theorem mouseupListener_idle (c : Controller) (h : c.dragging = false) :
    mouseupListener c = ⟨c, [], .normal ()⟩ := by
  simp [mouseupListener, h]

/-- Any number of mouseup listeners do nothing when the dragging flag is false. -/
theorem mouseupRun_idle (n : Nat) (c : Controller) (h : c.dragging = false) :
    mouseupRun n c = ⟨c, [], .normal ()⟩ := by
  induction n with
  | zero => rfl
  | succ n ih => simp [mouseupRun, Outcome.andThen, mouseupListener_idle c h, ih]

/-- C7: a release notification while the dragging flag is false invokes no callback (it
has no effect on any collaborator), raises no exception and leaves the whole controller
state unchanged: the dragging flag, the store and the move subscription among it. This
holds for the listener itself and for the dispatch to all registered listeners. -/
theorem release_while_idle_is_noop (c : Controller) (h : c.dragging = false) :
    (mouseup c).calls = [] ∧ (mouseup c).ret = .normal () ∧ (mouseup c).st = c
    ∧ (mouseupListener c).calls = [] ∧ (mouseupListener c).ret = .normal ()
    ∧ (mouseupListener c).st = c := by
  have hrun : mouseup c = ⟨c, [], .normal ()⟩ := by
    unfold mouseup
    exact mouseupRun_idle c.upListeners c h
  have hone : mouseupListener c = ⟨c, [], .normal ()⟩ := mouseupListener_idle c h
  rw [hrun, hone]
  exact ⟨rfl, rfl, rfl, rfl, rfl, rfl⟩

/-- Witness of C7: the scenario controller before any press. -/
theorem release_while_idle_is_noop_witness :
    scenarioIdle.dragging = false
    ∧ (mouseup scenarioIdle).calls = [] ∧ (mouseup scenarioIdle).ret = .normal ()
    ∧ (mouseup scenarioIdle).st = scenarioIdle
    ∧ (mouseupListener scenarioIdle).calls = []
    ∧ (mouseupListener scenarioIdle).ret = .normal ()
    ∧ (mouseupListener scenarioIdle).st = scenarioIdle :=
  ⟨rfl, release_while_idle_is_noop scenarioIdle rfl⟩

/-! ## The request -/

/-- C8: when `x` or `y` is undefined and `deltaX` or `deltaY` is undefined, `request`
returns false, invokes no callback (it has no effect on any collaborator) and leaves the
controller state unchanged, the dragging flag and the store among it. -/
theorem request_without_pair_fails (c : Controller) (p : DraggableParameter)
    (hxy : p.x = .undefined ∨ p.y = .undefined)
    (hd : p.deltaX = .undefined ∨ p.deltaY = .undefined) :
    (request c p).ret = .normal false ∧ (request c p).calls = [] ∧ (request c p).st = c := by
  have h1 : (isDefined p.x && isDefined p.y) = false := by
    rcases hxy with h | h <;> simp [h, isDefined]
  have h2 : (isDefined p.deltaX && isDefined p.deltaY) = false := by
    rcases hd with h | h <;> simp [h, isDefined]
  simp [request, h1, h2]

/-- Witness of C8: the empty parameter object, and one with only `y` and `deltaX`. -/
theorem request_without_pair_fails_witness :
    ((request scenarioPressed ⟨.undefined, .undefined, .undefined, .undefined⟩).ret
        = .normal false
      ∧ (request scenarioPressed ⟨.undefined, .undefined, .undefined, .undefined⟩).calls = []
      ∧ (request scenarioPressed ⟨.undefined, .undefined, .undefined, .undefined⟩).st
        = scenarioPressed)
    ∧ ((request scenarioIdle ⟨.undefined, .num (.fin 4), .num (.fin 1), .undefined⟩).ret
        = .normal false
      ∧ (request scenarioIdle ⟨.undefined, .num (.fin 4), .num (.fin 1), .undefined⟩).calls
        = []
      ∧ (request scenarioIdle ⟨.undefined, .num (.fin 4), .num (.fin 1), .undefined⟩).st
        = scenarioIdle) :=
  ⟨request_without_pair_fails scenarioPressed ⟨.undefined, .undefined, .undefined, .undefined⟩
      (Or.inl rfl) (Or.inl rfl),
   request_without_pair_fails scenarioIdle ⟨.undefined, .num (.fin 4), .num (.fin 1), .undefined⟩
      (Or.inl rfl) (Or.inr rfl)⟩

/-- The context calls of a request leave the handlers, the target and the array counter. -/
theorem requestActions_frame (acts : List CtxAction) (c : Controller) :
    (requestActions c acts).handlers = c.handlers
    ∧ (requestActions c acts).targetElement = c.targetElement
    ∧ (requestActions c acts).fresh = c.fresh
    ∧ (requestActions c acts).bounds = c.bounds
    ∧ (requestActions c acts).moveSubscribed = c.moveSubscribed
    ∧ (requestActions c acts).upListeners = c.upListeners := by
  induction acts generalizing c with
  | nil => simp [requestActions]
  | cons a rest ih =>
    cases a with
    | set position => simpa [requestActions] using ih _
    | stop => simpa [requestActions] using ih _

/-- The value test of `request`, as a proposition. -/
theorem isDefined_of_ne {v : Val} (h : v ≠ .undefined) : isDefined v = true := by
  cases v <;> simp [isDefined] at h ⊢

/-- The calls of the replay, for a controller that has a handlers object. -/
theorem requestReplay_calls (c : Controller) (h : Handlers) (t : Arr)
    (hh : c.handlers = some h) :
    (requestReplay c t).calls
      = (match h.dragStart with
          | none => []
          | some _ => [Call.dragStart ⟨none, .undefined, .undefined, .undefined, .undefined⟩])
        ++ (if h.drag then
              [Call.drag ⟨none, c.targetElement, ⟨t.at 0, t.at 1⟩, t, none⟩]
            else [])
        ++ (if h.dragEnd then [Call.dragEnd ⟨⟨.own (c.fresh + 1), [t.at 0, t.at 1]⟩⟩] else [])
    ∧ (requestReplay c t).ret = .normal true
    ∧ (requestReplay c t).st.handlers = some h
    ∧ (requestReplay c t).st.dragging = false := by
  unfold requestReplay
  simp only [bump, newArr, hh]
  cases hs : h.dragStart with
  | none => cases hd : h.drag <;> cases he : h.dragEnd <;> simp [hh]
  | some f =>
    have hf := requestActions_frame
      (f ⟨none, .undefined, .undefined, .undefined, .undefined⟩)
      { targetElement := c.targetElement, options := c.options, handlers := some h,
        dragging := true,
        store := { startTranslate := some ⟨.own c.fresh, []⟩, startMouse := c.store.startMouse,
                   startElement := c.store.startElement,
                   currentTranslate := c.store.currentTranslate },
        bounds := c.bounds, downSubscribed := c.downSubscribed,
        moveSubscribed := c.moveSubscribed, upListeners := c.upListeners,
        fresh := c.fresh + 1 }
    cases hd : h.drag <;> cases he : h.dragEnd <;> simp [hf]

/-- A request with an absolute pair is the replay of the array `[x, y]`. -/
theorem request_absolute (c : Controller) (p : DraggableParameter)
    (hx : p.x ≠ .undefined) (hy : p.y ≠ .undefined) :
    request c p = requestReplay (bump c) (newArr c [p.x, p.y]) := by
  simp [request, isDefined_of_ne hx, isDefined_of_ne hy]

/-- C9: with the three handlers registered and `x` and `y` defined, `request` invokes
`dragStart`, then `drag`, then `dragEnd`, once each and nothing else, whatever calls the
`dragStart` callback makes on its context (`stop` among them). The `dragStart` payload
carries no input event, the `drag` payload carries the translate `[x, y]`, the transform
of `x` and `y`, no input event and no delta, the `dragEnd` payload carries another array
object with the elements `[x, y]`, and `request` returns true. -/
theorem request_absolute_replays (c : Controller) (h : Handlers)
    (f : StartPayload → List CtxAction) (p : DraggableParameter)
    (hh : c.handlers = some h) (hs : h.dragStart = some f) (hd : h.drag = true)
    (he : h.dragEnd = true) (hx : p.x ≠ .undefined) (hy : p.y ≠ .undefined) :
    ∃ (sp : StartPayload) (dp : DragPayload) (ep : EndPayload),
      (request c p).calls = [.dragStart sp, .drag dp, .dragEnd ep]
      ∧ sp.inputEvent = none
      ∧ dp.translate.elems = [p.x, p.y] ∧ dp.transform = ⟨p.x, p.y⟩
      ∧ dp.delta = none ∧ dp.inputEvent = none ∧ dp.target = c.targetElement
      ∧ ep.translate.elems = [p.x, p.y] ∧ ep.translate.ref ≠ dp.translate.ref
      ∧ (request c p).ret = .normal true := by
  have hb : (bump c).handlers = some h := by simpa [bump] using hh
  obtain ⟨hc, hr, -, -⟩ := requestReplay_calls (bump c) h (newArr c [p.x, p.y]) hb
  rw [request_absolute c p hx hy, hc, hr]
  refine ⟨⟨none, .undefined, .undefined, .undefined, .undefined⟩,
    ⟨none, c.targetElement, ⟨p.x, p.y⟩, ⟨.own c.fresh, [p.x, p.y]⟩, none⟩,
    ⟨⟨.own (c.fresh + 1 + 1), [p.x, p.y]⟩⟩, ?_⟩
  simp [hs, hd, he, newArr, bump, Arr.at]
  omega

/-- Witness of C9: the scenario controller, once with a `dragStart` callback that calls
`stop()` and once with one that does not. -/
theorem request_absolute_replays_witness :
    (∃ (sp : StartPayload) (dp : DragPayload) (ep : EndPayload),
      (request { scenarioIdle with handlers := some stoppingHandlers }
          ⟨.num (.fin 3), .num (.fin 4), .undefined, .undefined⟩).calls
        = [.dragStart sp, .drag dp, .dragEnd ep]
      ∧ sp.inputEvent = none
      ∧ dp.translate.elems = [.num (.fin 3), .num (.fin 4)]
      ∧ dp.transform = ⟨.num (.fin 3), .num (.fin 4)⟩
      ∧ dp.delta = none ∧ dp.inputEvent = none ∧ dp.target = 7
      ∧ ep.translate.elems = [.num (.fin 3), .num (.fin 4)]
      ∧ ep.translate.ref ≠ dp.translate.ref
      ∧ (request { scenarioIdle with handlers := some stoppingHandlers }
          ⟨.num (.fin 3), .num (.fin 4), .undefined, .undefined⟩).ret = .normal true)
    ∧ (∃ (sp : StartPayload) (dp : DragPayload) (ep : EndPayload),
      (request scenarioIdle ⟨.null, .num .nan, .num (.fin 1), .undefined⟩).calls
        = [.dragStart sp, .drag dp, .dragEnd ep]
      ∧ sp.inputEvent = none
      ∧ dp.translate.elems = [.null, .num .nan]
      ∧ dp.transform = ⟨.null, .num .nan⟩
      ∧ dp.delta = none ∧ dp.inputEvent = none ∧ dp.target = 7
      ∧ ep.translate.elems = [.null, .num .nan]
      ∧ ep.translate.ref ≠ dp.translate.ref
      ∧ (request scenarioIdle ⟨.null, .num .nan, .num (.fin 1), .undefined⟩).ret
        = .normal true) :=
  ⟨request_absolute_replays { scenarioIdle with handlers := some stoppingHandlers }
      stoppingHandlers (fun _ => [.set ⟨.host 0, [.num (.fin 0), .num (.fin 0)]⟩, .stop])
      ⟨.num (.fin 3), .num (.fin 4), .undefined, .undefined⟩ rfl rfl rfl rfl
      (by decide) (by decide),
   request_absolute_replays scenarioIdle scenarioHandlers
      (fun _ => [.set ⟨.host 0, [.num (.fin 0), .num (.fin 0)]⟩])
      ⟨.null, .num .nan, .num (.fin 1), .undefined⟩ rfl rfl rfl rfl
      (by decide) (by decide)⟩

/-- C10: with a `dragEnd` callback registered and `a` and `b` defined, two calls of
`request({x: a, y: b})` in a row both return true and invoke `dragEnd` once each, two
invocations in all, and both payloads carry a translate with the elements `[a, b]`. -/
theorem request_twice_same_payload (c : Controller) (h : Handlers) (a b : Val)
    (hh : c.handlers = some h) (he : h.dragEnd = true)
    (ha : a ≠ .undefined) (hb : b ≠ .undefined) :
    (endPayloads (request c ⟨a, b, .undefined, .undefined⟩).calls).map
        (fun ep => ep.translate.elems) = [[a, b]]
    ∧ (endPayloads
        (request (request c ⟨a, b, .undefined, .undefined⟩).st
          ⟨a, b, .undefined, .undefined⟩).calls).map
        (fun ep => ep.translate.elems) = [[a, b]]
    ∧ (request c ⟨a, b, .undefined, .undefined⟩).ret = .normal true
    ∧ (request (request c ⟨a, b, .undefined, .undefined⟩).st
          ⟨a, b, .undefined, .undefined⟩).ret = .normal true := by
  have key : ∀ c0 : Controller, c0.handlers = some h →
      (endPayloads (request c0 ⟨a, b, .undefined, .undefined⟩).calls).map
          (fun ep => ep.translate.elems) = [[a, b]]
      ∧ (request c0 ⟨a, b, .undefined, .undefined⟩).ret = .normal true
      ∧ (request c0 ⟨a, b, .undefined, .undefined⟩).st.handlers = some h := by
    intro c0 h0
    have hb0 : (bump c0).handlers = some h := by simpa [bump] using h0
    obtain ⟨hc, hr, hst, -⟩ := requestReplay_calls (bump c0) h (newArr c0 [a, b]) hb0
    rw [request_absolute c0 ⟨a, b, .undefined, .undefined⟩ ha hb, hc, hr, hst]
    refine ⟨?_, rfl, rfl⟩
    cases hs : h.dragStart <;> cases hd : h.drag <;>
      simp [he, endPayloads, newArr, bump, Arr.at]
  obtain ⟨k1, k2, k3⟩ := key c hh
  obtain ⟨k4, k5, -⟩ := key _ k3
  exact ⟨k1, k4, k2, k5⟩

/-- Witness of C10: the scenario controller and the position (3, 4). -/
theorem request_twice_same_payload_witness :
    (endPayloads (request scenarioIdle
        ⟨.num (.fin 3), .num (.fin 4), .undefined, .undefined⟩).calls).map
        (fun ep => ep.translate.elems) = [[.num (.fin 3), .num (.fin 4)]]
    ∧ (endPayloads
        (request (request scenarioIdle
            ⟨.num (.fin 3), .num (.fin 4), .undefined, .undefined⟩).st
          ⟨.num (.fin 3), .num (.fin 4), .undefined, .undefined⟩).calls).map
        (fun ep => ep.translate.elems) = [[.num (.fin 3), .num (.fin 4)]]
    ∧ (request scenarioIdle
        ⟨.num (.fin 3), .num (.fin 4), .undefined, .undefined⟩).ret = .normal true
    ∧ (request (request scenarioIdle
            ⟨.num (.fin 3), .num (.fin 4), .undefined, .undefined⟩).st
          ⟨.num (.fin 3), .num (.fin 4), .undefined, .undefined⟩).ret = .normal true :=
  request_twice_same_payload scenarioIdle scenarioHandlers (.num (.fin 3)) (.num (.fin 4))
    rfl rfl (by decide) (by decide)

/-! ## The press -/

/-- The context calls of a press: the dragging flag is cleared exactly when `stop` is
among them; the subscriptions, the handlers and the bounds are left as they were. -/
theorem startActions_frame (acts : List CtxAction) (c : Controller) :
    (startActions c acts).st.dragging = (if CtxAction.stop ∈ acts then false else c.dragging)
    ∧ (startActions c acts).st.moveSubscribed = c.moveSubscribed
    ∧ (startActions c acts).st.handlers = c.handlers
    ∧ (startActions c acts).st.bounds = c.bounds
    ∧ (startActions c acts).st.upListeners = c.upListeners := by
  induction acts generalizing c with
  | nil => simp [startActions]
  | cons a rest ih =>
    cases a with
    | set position =>
      obtain ⟨h1, h2, h3, h4, h5⟩ := ih
        { bump c with store := { (bump c).store with
            startTranslate := some (newArr c [position.at 0, position.at 1]) } }
      simp only [startActions]
      refine ⟨?_, h2, h3, h4, h5⟩
      rw [h1]
      simp [bump]
    | stop =>
      obtain ⟨h1, h2, h3, h4, h5⟩ := ih { c with dragging := false }
      simp only [startActions]
      refine ⟨?_, h2, h3, h4, h5⟩
      rw [h1]
      simp

/-- The callback part of a press, for a controller that has a handlers object. -/
theorem dragStartNotify_flags (c : Controller) (h : Handlers) (e : MouseEvent)
    (hh : c.handlers = some h) :
    (dragStartNotify c e).st.dragging
        = (match h.dragStart with
            | none => c.dragging
            | some f => if CtxAction.stop ∈ f (pressPayload e) then false else c.dragging)
    ∧ (dragStartNotify c e).st.moveSubscribed
        = ((dragStartNotify c e).st.dragging || c.moveSubscribed)
    ∧ (dragStartNotify c e).st.handlers = some h
    ∧ (dragStartNotify c e).st.bounds = c.bounds
    ∧ (dragStartNotify c e).st.upListeners = c.upListeners
    ∧ (dragStartNotify c e).ret = .normal () := by
  unfold dragStartNotify
  simp only [hh]
  cases hs : h.dragStart with
  | none => cases hd : c.dragging <;> simp [hd, hh]
  | some f =>
    obtain ⟨h1, h2, h3, h4, h5⟩ := startActions_frame (f (pressPayload e)) c
    simp only []
    cases hd : (startActions c (f (pressPayload e))).st.dragging
    · simp [hd, h2, h3, h4, h5, hh, ← h1]
    · simp [hd, h2, h3, h4, h5, hh, ← h1]

/-- The flags after a press, for a controller that has a handlers object. -/
theorem dragStart_flags (c : Controller) (h : Handlers) (e : MouseEvent) (g : Geometry)
    (hh : c.handlers = some h) :
    (dragStart c e g).st.dragging
        = (match h.dragStart with
            | none => true
            | some f => if CtxAction.stop ∈ f (pressPayload e) then false else true)
    ∧ (dragStart c e g).st.moveSubscribed
        = ((dragStart c e g).st.dragging || c.moveSubscribed)
    ∧ (dragStart c e g).st.handlers = some h
    ∧ (dragStart c e g).st.bounds = c.bounds
    ∧ (dragStart c e g).st.upListeners = c.upListeners
    ∧ (dragStart c e g).ret = .normal () := by
  have hs : (dragStartStore c e g).handlers = some h := by
    simpa [dragStartStore, bump] using hh
  simpa [dragStart, dragStartStore, bump] using
    dragStartNotify_flags (dragStartStore c e g) h e hs

/-- C5: a press on a controller whose move handler is not subscribed (as in Idle), with
a handlers object. If the `dragStart` callback calls `stop()`, then after `dragStart`
returns the dragging flag is false and the move handler is not subscribed. If the
callback does not call `stop()`, or no `dragStart` callback is registered, the dragging
flag is true and the move handler is subscribed. `dragStart` returns normally. -/
theorem press_stop_decides (c : Controller) (h : Handlers) (e : MouseEvent) (g : Geometry)
    (hh : c.handlers = some h) (hsub : c.moveSubscribed = false) :
    (∀ f, h.dragStart = some f → CtxAction.stop ∈ f (pressPayload e) →
        (dragStart c e g).st.dragging = false ∧ (dragStart c e g).st.moveSubscribed = false)
    ∧ (∀ f, h.dragStart = some f → CtxAction.stop ∉ f (pressPayload e) →
        (dragStart c e g).st.dragging = true ∧ (dragStart c e g).st.moveSubscribed = true)
    ∧ (h.dragStart = none →
        (dragStart c e g).st.dragging = true ∧ (dragStart c e g).st.moveSubscribed = true)
    ∧ (dragStart c e g).ret = .normal () := by
  obtain ⟨h1, h2, -, -, -, h6⟩ := dragStart_flags c h e g hh
  rw [hsub] at h2
  refine ⟨?_, ?_, ?_, h6⟩
  · intro f hf hstop
    rw [hf] at h1
    simp only [hstop, if_true] at h1
    simp [h1, h2]
  · intro f hf hstop
    rw [hf] at h1
    simp only [hstop, if_false] at h1
    simp [h1, h2]
  · intro hf
    rw [hf] at h1
    simp [h1, h2]

/-- Witness of C5: the scenario controller with a callback that calls `stop()`, with one
that does not, and with no `dragStart` callback. -/
theorem press_stop_decides_witness :
    ((dragStart { scenarioIdle with handlers := some stoppingHandlers }
          (eventAt 10 10) scenarioGeometry).st.dragging = false
      ∧ (dragStart { scenarioIdle with handlers := some stoppingHandlers }
          (eventAt 10 10) scenarioGeometry).st.moveSubscribed = false)
    ∧ ((dragStart scenarioIdle (eventAt 10 10) scenarioGeometry).st.dragging = true
      ∧ (dragStart scenarioIdle (eventAt 10 10) scenarioGeometry).st.moveSubscribed = true)
    ∧ ((dragStart { scenarioIdle with handlers := some ⟨none, true, true⟩ }
          (eventAt 10 10) scenarioGeometry).st.dragging = true
      ∧ (dragStart { scenarioIdle with handlers := some ⟨none, true, true⟩ }
          (eventAt 10 10) scenarioGeometry).st.moveSubscribed = true) :=
  ⟨(press_stop_decides { scenarioIdle with handlers := some stoppingHandlers }
        stoppingHandlers (eventAt 10 10) scenarioGeometry rfl rfl).1
      (fun _ => [.set ⟨.host 0, [.num (.fin 0), .num (.fin 0)]⟩, .stop]) rfl (by decide),
   (press_stop_decides scenarioIdle scenarioHandlers (eventAt 10 10) scenarioGeometry
        rfl rfl).2.1
      (fun _ => [.set ⟨.host 0, [.num (.fin 0), .num (.fin 0)]⟩]) rfl (by decide),
   (press_stop_decides { scenarioIdle with handlers := some ⟨none, true, true⟩ }
        ⟨none, true, true⟩ (eventAt 10 10) scenarioGeometry rfl rfl).2.2.1 rfl⟩

/-! ## The move -/

/-- Addition of numbers is commutative. -/
theorem Num.add_comm (a b : Num) : a.add b = b.add a := by
  cases a <;> cases b <;> simp [Num.add, Int.add_comm]

/-- The operator `+` is commutative on the value universe. -/
theorem jsAdd_comm (a b : Val) : jsAdd a b = jsAdd b a := by
  simp [jsAdd, Num.add_comm (toNumber a) (toNumber b)]

/-- A negative number is not `>= 0`. -/
theorem Num.ge0_of_lt0 (n : Num) (h : n.lt0 = true) : n.ge0 = false := by
  cases n <;> simp [Num.lt0, Num.ge0] at h ⊢
  omega

/-- The loop over the four scalars `v`: it stops at the first side whose scalar is
`>= 0`, and runs to the end when there is none. -/
theorem boundLoop_entries (v : Side → Val) :
    (∀ d value, boundLoop (entries ⟨v .left, v .top, v .right, v .bottom⟩) = some (d, value) →
        value = v d ∧ (toNumber (v d)).ge0 = true
        ∧ ∀ d2 : Side, d2.idx < d.idx → (toNumber (v d2)).ge0 = false)
    ∧ (boundLoop (entries ⟨v .left, v .top, v .right, v .bottom⟩) = none ↔
        ∀ d, (toNumber (v d)).ge0 = false) := by
  refine ⟨?_, ?_, ?_⟩
  · intro d value hd
    simp only [entries, boundLoop] at hd
    split_ifs at hd with h1 h2 h3 h4 <;> simp at hd <;> obtain ⟨rfl, rfl⟩ := hd <;>
      refine ⟨rfl, by assumption, ?_⟩ <;> intro d2 hlt <;>
      cases d2 <;> simp [Side.idx] at hlt <;> simp [*]
  · intro hn d
    simp only [entries, boundLoop] at hn
    split_ifs at hn with h1 h2 h3 h4
    cases d <;> simp [*]
  · intro hall
    simp [entries, boundLoop, hall]

/-- Reading the first element of a two-element array. -/
theorem Arr.at_zero (r : Ref) (a b : Val) : (⟨r, [a, b]⟩ : Arr).at 0 = a := rfl

/-- Reading the second element of a two-element array. -/
theorem Arr.at_one (r : Ref) (a b : Val) : (⟨r, [a, b]⟩ : Arr).at 1 = b := rfl

/-- What a move leaves as it was: the flags, the handlers, the bounds, the listeners and
the start values of the store; the array counter does not decrease. -/
theorem drag_frame (c : Controller) (e : MouseEvent) :
    (drag c e).st.dragging = c.dragging
    ∧ (drag c e).st.moveSubscribed = c.moveSubscribed
    ∧ (drag c e).st.handlers = c.handlers
    ∧ (drag c e).st.bounds = c.bounds
    ∧ (drag c e).st.upListeners = c.upListeners
    ∧ (drag c e).st.targetElement = c.targetElement
    ∧ (drag c e).st.store.startTranslate = c.store.startTranslate
    ∧ (drag c e).st.store.startMouse = c.store.startMouse
    ∧ (drag c e).st.store.startElement = c.store.startElement
    ∧ c.fresh ≤ (drag c e).st.fresh := by
  simp only [drag, bump]
  repeat' split
  all_goals simp
  all_goals omega

/-- A sequence of moves leaves the same parts of the state as one move. -/
theorem mousemoves_frame (es : List MouseEvent) (c : Controller) :
    (mousemoves c es).st.dragging = c.dragging
    ∧ (mousemoves c es).st.moveSubscribed = c.moveSubscribed
    ∧ (mousemoves c es).st.handlers = c.handlers
    ∧ (mousemoves c es).st.bounds = c.bounds
    ∧ (mousemoves c es).st.upListeners = c.upListeners
    ∧ (mousemoves c es).st.targetElement = c.targetElement
    ∧ (mousemoves c es).st.store.startTranslate = c.store.startTranslate
    ∧ (mousemoves c es).st.store.startMouse = c.store.startMouse
    ∧ (mousemoves c es).st.store.startElement = c.store.startElement
    ∧ c.fresh ≤ (mousemoves c es).st.fresh := by
  induction es generalizing c with
  | nil => simp [mousemoves]
  | cons e rest ih =>
    have h1 : (mousemove c e).st.dragging = c.dragging
        ∧ (mousemove c e).st.moveSubscribed = c.moveSubscribed
        ∧ (mousemove c e).st.handlers = c.handlers
        ∧ (mousemove c e).st.bounds = c.bounds
        ∧ (mousemove c e).st.upListeners = c.upListeners
        ∧ (mousemove c e).st.targetElement = c.targetElement
        ∧ (mousemove c e).st.store.startTranslate = c.store.startTranslate
        ∧ (mousemove c e).st.store.startMouse = c.store.startMouse
        ∧ (mousemove c e).st.store.startElement = c.store.startElement
        ∧ c.fresh ≤ (mousemove c e).st.fresh := by
      unfold mousemove
      split
      · exact drag_frame c e
      · simp
    obtain ⟨a1, a2, a3, a4, a5, a6, a7, a8, a9, a10⟩ := h1
    obtain ⟨b1, b2, b3, b4, b5, b6, b7, b8, b9, b10⟩ := ih (mousemove c e).st
    simp only [mousemoves, Outcome.andThen]
    refine ⟨b1.trans a1, b2.trans a2, b3.trans a3, b4.trans a4, b5.trans a5, b6.trans a6,
      b7.trans a7, b8.trans a8, b9.trans a9, Nat.le_trans a10 b10⟩

/-- A move during a gesture on which the loop stops at a side: `preventDefault`, then
the bound policy for that side, and nothing else. -/
theorem drag_bound (c : Controller) (b r : Sides) (sT sM : Arr) (e : MouseEvent)
    (d : Side) (value : Val)
    (hb : c.bounds = some b) (hr : c.store.startElement = some r)
    (hsT : c.store.startTranslate = some sT) (hsM : c.store.startMouse = some sM)
    (hloop : boundLoop (entries
        ⟨violation b r (jsSub (.num e.pageX) (sM.at 0)) (jsSub (.num e.pageY) (sM.at 1)) .left,
         violation b r (jsSub (.num e.pageX) (sM.at 0)) (jsSub (.num e.pageY) (sM.at 1)) .top,
         violation b r (jsSub (.num e.pageX) (sM.at 0)) (jsSub (.num e.pageY) (sM.at 1)) .right,
         violation b r (jsSub (.num e.pageX) (sM.at 0)) (jsSub (.num e.pageY) (sM.at 1))
           .bottom⟩) = some (d, value)) :
    (drag c e).calls = [.preventDefault e, .bound d value]
    ∧ (drag c e).ret = .normal ()
    ∧ (drag c e).st.store = c.store := by
  simp only [violation] at hloop
  simp [drag, bump, newArr, Arr.at_zero, Arr.at_one, hb, hr, hsT, hsM, hloop]

/-- A move during a gesture on which the loop runs to the end, with the `drag` callback
registered: `preventDefault`, then the callback, and the translate is stored. -/
theorem drag_inside (c : Controller) (h : Handlers) (b r : Sides) (sT sM : Arr)
    (e : MouseEvent)
    (hh : c.handlers = some h) (hd : h.drag = true)
    (hb : c.bounds = some b) (hr : c.store.startElement = some r)
    (hsT : c.store.startTranslate = some sT) (hsM : c.store.startMouse = some sM)
    (hloop : boundLoop (entries
        ⟨violation b r (jsSub (.num e.pageX) (sM.at 0)) (jsSub (.num e.pageY) (sM.at 1)) .left,
         violation b r (jsSub (.num e.pageX) (sM.at 0)) (jsSub (.num e.pageY) (sM.at 1)) .top,
         violation b r (jsSub (.num e.pageX) (sM.at 0)) (jsSub (.num e.pageY) (sM.at 1)) .right,
         violation b r (jsSub (.num e.pageX) (sM.at 0)) (jsSub (.num e.pageY) (sM.at 1))
           .bottom⟩) = none) :
    (drag c e).calls
      = [.preventDefault e,
         .drag { inputEvent := some e
                 target := c.targetElement
                 transform := ⟨jsAdd (jsSub (.num e.pageX) (sM.at 0)) (sT.at 0),
                               jsAdd (jsSub (.num e.pageY) (sM.at 1)) (sT.at 1)⟩
                 translate := ⟨.own (c.fresh + 2),
                   [jsAdd (jsSub (.num e.pageX) (sM.at 0)) (sT.at 0),
                    jsAdd (jsSub (.num e.pageY) (sM.at 1)) (sT.at 1)]⟩
                 delta := some ⟨.own c.fresh,
                   [jsSub (.num e.pageX) (sM.at 0), jsSub (.num e.pageY) (sM.at 1)]⟩ }]
    ∧ (drag c e).ret = .normal ()
    ∧ (drag c e).st.store.currentTranslate
      = some ⟨.own (c.fresh + 2),
          [jsAdd (jsSub (.num e.pageX) (sM.at 0)) (sT.at 0),
           jsAdd (jsSub (.num e.pageY) (sM.at 1)) (sT.at 1)]⟩ := by
  simp only [violation] at hloop
  simp [drag, bump, newArr, Arr.at_zero, Arr.at_one, hh, hd, hb, hr, hsT, hsM, hloop]

/-- C3: a controller with resolved bounds `b` and a registered `drag` callback, in a
gesture whose press was at pointer `(p0x, p0y)` and whose `dragStart` callback set the
start translate to `[sx, sy]`. After any earlier moves of the gesture, a move at pointer
`(e.pageX, e.pageY)` whose four violation scalars are negative invokes the `drag`
callback exactly once, with translate `[sx + (e.pageX - p0x), sy + (e.pageY - p0y)]` and
delta `[e.pageX - p0x, e.pageY - p0y]`, and stores that translate as `currentTranslate`:
the value does not depend on the earlier moves. -/
theorem drag_reports_start_plus_delta (c : Controller) (h : Handlers) (b r : Sides)
    (sT sM : Arr) (sx sy : Val) (p0x p0y : Num) (earlier : List MouseEvent) (e : MouseEvent)
    (hh : c.handlers = some h) (hd : h.drag = true)
    (hb : c.bounds = some b) (hr : c.store.startElement = some r)
    (hsT : c.store.startTranslate = some sT) (hs : sT.elems = [sx, sy])
    (hsM : c.store.startMouse = some sM) (hm : sM.elems = [.num p0x, .num p0y])
    (hneg : ∀ d : Side,
      (toNumber (violation b r (jsSub (.num e.pageX) (.num p0x))
        (jsSub (.num e.pageY) (.num p0y)) d)).lt0 = true) :
    ∃ dp : DragPayload,
      (drag (mousemoves c earlier).st e).calls = [.preventDefault e, .drag dp]
      ∧ dp.translate.elems
          = [jsAdd sx (jsSub (.num e.pageX) (.num p0x)),
             jsAdd sy (jsSub (.num e.pageY) (.num p0y))]
      ∧ dp.delta.map (fun a => a.elems)
          = some [jsSub (.num e.pageX) (.num p0x), jsSub (.num e.pageY) (.num p0y)]
      ∧ (drag (mousemoves c earlier).st e).st.store.currentTranslate = some dp.translate
      ∧ (drag (mousemoves c earlier).st e).ret = .normal () := by
  obtain ⟨-, -, f3, f4, -, -, f7, f8, f9, -⟩ := mousemoves_frame earlier c
  obtain ⟨refT, elemsT⟩ := sT
  obtain ⟨refM, elemsM⟩ := sM
  simp only at hs hm
  subst hs hm
  have hloop := (boundLoop_entries
    (violation b r (jsSub (.num e.pageX) (.num p0x)) (jsSub (.num e.pageY) (.num p0y)))).2.2
    (fun d => Num.ge0_of_lt0 _ (hneg d))
  obtain ⟨k1, k2, k3⟩ := drag_inside (mousemoves c earlier).st h b r
    ⟨refT, [sx, sy]⟩ ⟨refM, [.num p0x, .num p0y]⟩ e (f3.trans hh) hd (f4.trans hb)
    (f9.trans hr) (f7.trans hsT) (f8.trans hsM) hloop
  refine ⟨_, k1, ?_, ?_, ?_, k2⟩
  · simp [Arr.at_zero, Arr.at_one, jsAdd_comm sx, jsAdd_comm sy]
  · simp [Arr.at_zero, Arr.at_one]
  · simpa using k3

/-- Witness of C3: the scenario. Press at (10, 10), start translate `[0, 0]`, earlier
moves to (70, 10) and (40, 12), then the move to (30, 10): translate `[20, 0]`. -/
theorem drag_reports_start_plus_delta_witness :
    ∃ dp : DragPayload,
      (drag (mousemoves scenarioPressed [eventAt 70 10, eventAt 40 12]).st
          (eventAt 30 10)).calls = [.preventDefault (eventAt 30 10), .drag dp]
      ∧ dp.translate.elems = [.num (.fin 20), .num (.fin 0)]
      ∧ dp.delta.map (fun a => a.elems) = some [.num (.fin 20), .num (.fin 0)]
      ∧ (drag (mousemoves scenarioPressed [eventAt 70 10, eventAt 40 12]).st
          (eventAt 30 10)).st.store.currentTranslate = some dp.translate
      ∧ (drag (mousemoves scenarioPressed [eventAt 70 10, eventAt 40 12]).st
          (eventAt 30 10)).ret = .normal () :=
  drag_reports_start_plus_delta scenarioPressed scenarioHandlers
    ⟨.num .negInf, .num .negInf, .num (.fin 100), .num .posInf⟩
    ⟨.num (.fin 0), .num (.fin 0), .num (.fin 50), .num (.fin 20)⟩
    ⟨.own 3, [.num (.fin 0), .num (.fin 0)]⟩ ⟨.own 1, [.num (.fin 10), .num (.fin 10)]⟩
    (.num (.fin 0)) (.num (.fin 0)) (.fin 10) (.fin 10)
    [eventAt 70 10, eventAt 40 12] (eventAt 30 10)
    rfl rfl rfl rfl rfl rfl rfl rfl (fun d => by cases d <;> rfl)

/-- C4: a controller with resolved bounds `b`, in a gesture (the start values are
stored). On a move for which at least one of the four violation scalars is `>= 0`,
`drag` does not invoke the `drag` callback and stores nothing; after `preventDefault`
it calls the bound policy exactly once, with the first side in the order left, top,
right, bottom whose scalar is `>= 0` and with that scalar. -/
theorem drag_violation_fires_bound (c : Controller) (b r : Sides) (sT sM : Arr)
    (e : MouseEvent)
    (hb : c.bounds = some b) (hr : c.store.startElement = some r)
    (hsT : c.store.startTranslate = some sT) (hsM : c.store.startMouse = some sM)
    (hv : ∃ d : Side,
      (toNumber (violation b r (jsSub (.num e.pageX) (sM.at 0))
        (jsSub (.num e.pageY) (sM.at 1)) d)).ge0 = true) :
    ∃ d : Side,
      (drag c e).calls
        = [.preventDefault e,
           .bound d (violation b r (jsSub (.num e.pageX) (sM.at 0))
             (jsSub (.num e.pageY) (sM.at 1)) d)]
      ∧ (toNumber (violation b r (jsSub (.num e.pageX) (sM.at 0))
          (jsSub (.num e.pageY) (sM.at 1)) d)).ge0 = true
      ∧ (∀ d2 : Side, d2.idx < d.idx →
          (toNumber (violation b r (jsSub (.num e.pageX) (sM.at 0))
            (jsSub (.num e.pageY) (sM.at 1)) d2)).ge0 = false)
      ∧ dragPayloads (drag c e).calls = []
      ∧ (drag c e).st.store = c.store
      ∧ (drag c e).ret = .normal () := by
  obtain ⟨hsome, hnone, -⟩ := boundLoop_entries
    (violation b r (jsSub (.num e.pageX) (sM.at 0)) (jsSub (.num e.pageY) (sM.at 1)))
  cases hloop : boundLoop (entries
      ⟨violation b r (jsSub (.num e.pageX) (sM.at 0)) (jsSub (.num e.pageY) (sM.at 1)) .left,
       violation b r (jsSub (.num e.pageX) (sM.at 0)) (jsSub (.num e.pageY) (sM.at 1)) .top,
       violation b r (jsSub (.num e.pageX) (sM.at 0)) (jsSub (.num e.pageY) (sM.at 1)) .right,
       violation b r (jsSub (.num e.pageX) (sM.at 0)) (jsSub (.num e.pageY) (sM.at 1))
         .bottom⟩) with
  | none =>
    obtain ⟨d, hd⟩ := hv
    rw [hnone hloop d] at hd
    exact absurd hd (by simp)
  | some dv =>
    obtain ⟨d, value⟩ := dv
    obtain ⟨rfl, h2, h3⟩ := hsome d value hloop
    obtain ⟨k1, k2, k3⟩ := drag_bound c b r sT sM e d _ hb hr hsT hsM hloop
    refine ⟨d, k1, h2, h3, ?_, k3, k2⟩
    rw [k1]
    rfl

/-- Witness of C4: the scenario. The move to (70, 10) gives the right scalar
`60 + 50 - 100 = 10`: the bound policy is called for the right side with 10. -/
theorem drag_violation_fires_bound_witness :
    ∃ d : Side,
      (drag scenarioPressed (eventAt 70 10)).calls
        = [.preventDefault (eventAt 70 10),
           .bound d (violation ⟨.num .negInf, .num .negInf, .num (.fin 100), .num .posInf⟩
             ⟨.num (.fin 0), .num (.fin 0), .num (.fin 50), .num (.fin 20)⟩
             (.num (.fin 60)) (.num (.fin 0)) d)]
      ∧ (toNumber (violation ⟨.num .negInf, .num .negInf, .num (.fin 100), .num .posInf⟩
             ⟨.num (.fin 0), .num (.fin 0), .num (.fin 50), .num (.fin 20)⟩
             (.num (.fin 60)) (.num (.fin 0)) d)).ge0 = true
      ∧ (∀ d2 : Side, d2.idx < d.idx →
          (toNumber (violation ⟨.num .negInf, .num .negInf, .num (.fin 100), .num .posInf⟩
             ⟨.num (.fin 0), .num (.fin 0), .num (.fin 50), .num (.fin 20)⟩
             (.num (.fin 60)) (.num (.fin 0)) d2)).ge0 = false)
      ∧ dragPayloads (drag scenarioPressed (eventAt 70 10)).calls = []
      ∧ (drag scenarioPressed (eventAt 70 10)).st.store = scenarioPressed.store
      ∧ (drag scenarioPressed (eventAt 70 10)).ret = .normal () :=
  drag_violation_fires_bound scenarioPressed
    ⟨.num .negInf, .num .negInf, .num (.fin 100), .num .posInf⟩
    ⟨.num (.fin 0), .num (.fin 0), .num (.fin 50), .num (.fin 20)⟩
    ⟨.own 3, [.num (.fin 0), .num (.fin 0)]⟩ ⟨.own 1, [.num (.fin 10), .num (.fin 10)]⟩
    (eventAt 70 10) rfl rfl rfl rfl ⟨.right, rfl⟩

/-! ## The release -/

/-- The `drag` payloads of two runs of calls, one after the other. -/
theorem dragPayloads_append (xs ys : List Call) :
    dragPayloads (xs ++ ys) = dragPayloads xs ++ dragPayloads ys := by
  induction xs with
  | nil => rfl
  | cons x rest ih => cases x <;> simp [dragPayloads, ih]

/-- One move, with the `drag` callback registered: either the callback is not invoked
and `currentTranslate` is left as it was, or it is invoked once and its translate is the
array now stored, a two-element array of the controller. -/
theorem mousemove_last (c : Controller) (h : Handlers) (e : MouseEvent)
    (hh : c.handlers = some h) (hd : h.drag = true) :
    (dragPayloads (mousemove c e).calls = []
      ∧ (mousemove c e).st.store.currentTranslate = c.store.currentTranslate)
    ∨ (∃ (p : DragPayload) (j : Nat) (x y : Val),
        dragPayloads (mousemove c e).calls = [p]
        ∧ (mousemove c e).st.store.currentTranslate = some p.translate
        ∧ p.translate = ⟨.own j, [x, y]⟩ ∧ j < (mousemove c e).st.fresh) := by
  simp only [mousemove, drag, bump, newArr]
  repeat' split
  all_goals simp_all [dragPayloads]

/-- A sequence of moves, with the `drag` callback registered: without an invocation of
the callback `currentTranslate` is left as it was, and the translate of the last
invocation is the array stored at the end, a two-element array of the controller. -/
theorem mousemoves_last (es : List MouseEvent) (c : Controller) (h : Handlers)
    (hh : c.handlers = some h) (hd : h.drag = true) :
    (dragPayloads (mousemoves c es).calls = [] →
      (mousemoves c es).st.store.currentTranslate = c.store.currentTranslate)
    ∧ (∀ p, (dragPayloads (mousemoves c es).calls).getLast? = some p →
        (mousemoves c es).st.store.currentTranslate = some p.translate
        ∧ ∃ (j : Nat) (x y : Val),
            p.translate = ⟨.own j, [x, y]⟩ ∧ j < (mousemoves c es).st.fresh) := by
  induction es generalizing c with
  | nil => simp [mousemoves, dragPayloads]
  | cons e rest ih =>
    have hh1 : (mousemove c e).st.handlers = some h := by
      have := (mousemoves_frame [e] c).2.2.1
      simpa [mousemoves, Outcome.andThen, hh] using this
    obtain ⟨ih1, ih2⟩ := ih (mousemove c e).st hh1
    have hfresh := (mousemoves_frame rest (mousemove c e).st).2.2.2.2.2.2.2.2.2
    simp only [mousemoves, Outcome.andThen, dragPayloads_append]
    refine ⟨?_, ?_⟩
    · intro hnil
      obtain ⟨n1, n2⟩ := List.append_eq_nil.mp hnil
      rw [ih1 n2]
      rcases mousemove_last c h e hh hd with ⟨-, a2⟩ | ⟨p, j, x, y, a1, -⟩
      · exact a2
      · rw [a1] at n1
        exact absurd n1 (by simp)
    · intro p hp
      rw [List.getLast?_append] at hp
      cases hlast : (dragPayloads (mousemoves (mousemove c e).st rest).calls).getLast? with
      | some q =>
        rw [hlast] at hp
        simp only [Option.or_some, Option.some.injEq] at hp
        exact ih2 p (hp ▸ hlast)
      | none =>
        rw [hlast] at hp
        simp only [Option.none_or] at hp
        have hnil := List.getLast?_eq_none_iff.mp hlast
        rw [ih1 hnil]
        rcases mousemove_last c h e hh hd with ⟨a1, -⟩ | ⟨q, j, x, y, a1, a2, a3, a4⟩
        · rw [a1] at hp
          exact absurd hp (by simp)
        · rw [a1] at hp
          simp only [List.getLast?_singleton, Option.some.injEq] at hp
          subst hp
          exact ⟨a2, j, x, y, a3, Nat.lt_of_lt_of_le a4 hfresh⟩

/-- The mouseup listeners on a dragging controller with a registered `dragEnd` callback
and a stored `currentTranslate`: the first one clears the flag, unsubscribes the move
handler and invokes the callback with a new array, the others do nothing. -/
theorem mouseupRun_dragging (n : Nat) (c : Controller) (h : Handlers) (ct : Arr)
    (hdrag : c.dragging = true) (hh : c.handlers = some h) (he : h.dragEnd = true)
    (hct : c.store.currentTranslate = some ct) :
    (mouseupRun (n + 1) c).calls = [.dragEnd ⟨⟨.own c.fresh, [ct.at 0, ct.at 1]⟩⟩]
    ∧ (mouseupRun (n + 1) c).ret = .normal ()
    ∧ (mouseupRun (n + 1) c).st.dragging = false
    ∧ (mouseupRun (n + 1) c).st.moveSubscribed = false
    ∧ (mouseupRun (n + 1) c).st.store = c.store := by
  have h1 : mouseupListener c
      = ⟨bump { c with dragging := false, moveSubscribed := false },
         [.dragEnd ⟨⟨.own c.fresh, [ct.at 0, ct.at 1]⟩⟩], .normal ()⟩ := by
    simp [mouseupListener, hdrag, hh, he, hct, bump, newArr]
  have h2 := mouseupRun_idle n (bump { c with dragging := false, moveSubscribed := false }) rfl
  simp only [mouseupRun, Outcome.andThen, h1, h2]
  simp [bump]

/-- Moves are not delivered while the move handler is not subscribed. -/
theorem mousemoves_unsubscribed (es : List MouseEvent) (c : Controller)
    (h : c.moveSubscribed = false) : mousemoves c es = ⟨c, [], .normal ()⟩ := by
  induction es with
  | nil => rfl
  | cons e rest ih => simp [mousemoves, mousemove, Outcome.andThen, h, ih]

/-- C6: a gesture on a controller whose move handler is not subscribed before the press
(as in Idle), with the `drag` and `dragEnd` callbacks registered and at least one mouseup
listener: a press, any moves, a release. If the moves contain a non-violating one, so
that there is a last `drag` invocation with payload `p`, then the release clears the
dragging flag, unsubscribes the move handler and invokes `dragEnd` exactly once, with a
new array object whose elements are those of the stored `currentTranslate`, which is the
translate of `p`: moves after it that violate a bound did not change it. -/
theorem release_reports_last_translate (c : Controller) (h : Handlers) (e0 : MouseEvent)
    (g : Geometry) (es : List MouseEvent) (p : DragPayload)
    (hh : c.handlers = some h) (hd : h.drag = true) (he : h.dragEnd = true)
    (hsub : c.moveSubscribed = false) (hup : 0 < c.upListeners)
    (hlast : (dragPayloads (mousemoves (dragStart c e0 g).st es).calls).getLast? = some p) :
    ∃ ep : EndPayload,
      (mouseup (mousemoves (dragStart c e0 g).st es).st).calls = [.dragEnd ep]
      ∧ ep.translate.elems = p.translate.elems
      ∧ ep.translate.ref ≠ p.translate.ref
      ∧ (mousemoves (dragStart c e0 g).st es).st.store.currentTranslate = some p.translate
      ∧ (mouseup (mousemoves (dragStart c e0 g).st es).st).st.dragging = false
      ∧ (mouseup (mousemoves (dragStart c e0 g).st es).st).st.moveSubscribed = false
      ∧ (mouseup (mousemoves (dragStart c e0 g).st es).st).ret = .normal () := by
  obtain ⟨-, s2, s3, -, s5, -⟩ := dragStart_flags c h e0 g hh
  rw [hsub, Bool.or_false] at s2
  cases hdrag : (dragStart c e0 g).st.dragging with
  | false =>
    rw [hdrag] at s2
    rw [mousemoves_unsubscribed es _ s2] at hlast
    simp [dragPayloads] at hlast
  | true =>
    obtain ⟨m1, -, m3, -, m5, -⟩ := mousemoves_frame es (dragStart c e0 g).st
    obtain ⟨-, l2⟩ := mousemoves_last es (dragStart c e0 g).st h s3 hd
    obtain ⟨hct, j, x, y, hp, hj⟩ := l2 p hlast
    obtain ⟨n, hn⟩ := Nat.exists_eq_succ_of_ne_zero (Nat.pos_iff_ne_zero.mp hup)
    have hn2 : (mousemoves (dragStart c e0 g).st es).st.upListeners = n + 1 := by
      rw [m5, s5, hn]
    obtain ⟨r1, r2, r3, r4, -⟩ := mouseupRun_dragging n (mousemoves (dragStart c e0 g).st es).st
      h p.translate (m1.trans hdrag) (m3.trans s3) he hct
    simp only [mouseup, hn2]
    refine ⟨_, r1, ?_, ?_, hct, r3, r4, r2⟩
    · simp [hp, Arr.at_zero, Arr.at_one]
    · simp only [hp, ne_eq, Ref.own.injEq]
      omega

/-- Witness of C6: the scenario. Press at (10, 10), a move to (30, 10) inside the
bounds, a move to (70, 10) past the right bound, release: `dragEnd` gets `[20, 0]`. -/
theorem release_reports_last_translate_witness :
    ∃ ep : EndPayload,
      (mouseup (mousemoves (dragStart scenarioIdle (eventAt 10 10) scenarioGeometry).st
          [eventAt 30 10, eventAt 70 10]).st).calls = [.dragEnd ep]
      ∧ ep.translate.elems = [.num (.fin 20), .num (.fin 0)]
      ∧ ep.translate.ref ≠ .own 6
      ∧ (mousemoves (dragStart scenarioIdle (eventAt 10 10) scenarioGeometry).st
          [eventAt 30 10, eventAt 70 10]).st.store.currentTranslate
          = some ⟨.own 6, [.num (.fin 20), .num (.fin 0)]⟩
      ∧ (mouseup (mousemoves (dragStart scenarioIdle (eventAt 10 10) scenarioGeometry).st
          [eventAt 30 10, eventAt 70 10]).st).st.dragging = false
      ∧ (mouseup (mousemoves (dragStart scenarioIdle (eventAt 10 10) scenarioGeometry).st
          [eventAt 30 10, eventAt 70 10]).st).st.moveSubscribed = false
      ∧ (mouseup (mousemoves (dragStart scenarioIdle (eventAt 10 10) scenarioGeometry).st
          [eventAt 30 10, eventAt 70 10]).st).ret = .normal () :=
  release_reports_last_translate scenarioIdle scenarioHandlers (eventAt 10 10)
    scenarioGeometry [eventAt 30 10, eventAt 70 10]
    { inputEvent := some (eventAt 30 10)
      target := 7
      transform := ⟨.num (.fin 20), .num (.fin 0)⟩
      translate := ⟨.own 6, [.num (.fin 20), .num (.fin 0)]⟩
      delta := some ⟨.own 4, [.num (.fin 20), .num (.fin 0)]⟩ }
    rfl rfl rfl rfl (by decide) rfl

/-! ## The request: delta pair, bounds, precedence -/

/-- A request with a delta pair and no absolute pair, on a controller with a recorded
start translate, is the replay of the recorded start translate plus the delta. -/
theorem request_delta (c : Controller) (p : DraggableParameter) (sT : Arr)
    (hsT : c.store.startTranslate = some sT)
    (hxy : p.x = .undefined ∨ p.y = .undefined)
    (hdx : p.deltaX ≠ .undefined) (hdy : p.deltaY ≠ .undefined) :
    request c p = requestReplay (bump c)
      (newArr c [jsAdd (sT.at 0) p.deltaX, jsAdd (sT.at 1) p.deltaY]) := by
  have h1 : (isDefined p.x && isDefined p.y) = false := by
    rcases hxy with h | h <;> simp [h, isDefined]
  simp [request, h1, isDefined_of_ne hdx, isDefined_of_ne hdy, hsT]

/-- C11: a controller whose recorded start translate is `[sx, sy]`, with the `drag` and
`dragEnd` callbacks registered, and a parameter with `deltaX` and `deltaY` defined and
`x` or `y` undefined. `request` invokes `drag` once and `dragEnd` once, both with the
translate `[sx + deltaX, sy + deltaY]`, and returns true, whatever the `dragStart`
callback of this request does: the start translate it may set is not used. -/
theorem request_delta_uses_recorded_start (c : Controller) (h : Handlers) (sT : Arr)
    (sx sy : Val) (p : DraggableParameter)
    (hh : c.handlers = some h) (hd : h.drag = true) (he : h.dragEnd = true)
    (hsT : c.store.startTranslate = some sT) (hs : sT.elems = [sx, sy])
    (hxy : p.x = .undefined ∨ p.y = .undefined)
    (hdx : p.deltaX ≠ .undefined) (hdy : p.deltaY ≠ .undefined) :
    (dragPayloads (request c p).calls).map (fun dp => dp.translate.elems)
        = [[jsAdd sx p.deltaX, jsAdd sy p.deltaY]]
    ∧ (endPayloads (request c p).calls).map (fun ep => ep.translate.elems)
        = [[jsAdd sx p.deltaX, jsAdd sy p.deltaY]]
    ∧ (request c p).ret = .normal true := by
  obtain ⟨refT, elemsT⟩ := sT
  simp only at hs
  subst hs
  have hb : (bump c).handlers = some h := by simpa [bump] using hh
  obtain ⟨hc, hr, -, -⟩ := requestReplay_calls (bump c) h
    (newArr c [jsAdd ((⟨refT, [sx, sy]⟩ : Arr).at 0) p.deltaX,
               jsAdd ((⟨refT, [sx, sy]⟩ : Arr).at 1) p.deltaY]) hb
  rw [request_delta c p ⟨refT, [sx, sy]⟩ hsT hxy hdx hdy, hc, hr]
  refine ⟨?_, ?_, rfl⟩
  · cases hs : h.dragStart <;>
      simp [hd, he, dragPayloads, newArr, bump, Arr.at_zero, Arr.at_one]
  · cases hs : h.dragStart <;>
      simp [hd, he, endPayloads, newArr, bump, Arr.at_zero, Arr.at_one]

/-- Witness of C11: the scenario after the press (recorded start translate `[0, 0]`),
with a `dragStart` callback that sets the start translate to `[100, 200]`, and the delta
pair (5, 7): the reported translate is `[5, 7]`. -/
theorem request_delta_uses_recorded_start_witness :
    (dragPayloads (request scenarioOverwriting
        ⟨.undefined, .undefined, .num (.fin 5), .num (.fin 7)⟩).calls).map
        (fun dp => dp.translate.elems) = [[.num (.fin 5), .num (.fin 7)]]
    ∧ (endPayloads (request scenarioOverwriting
        ⟨.undefined, .undefined, .num (.fin 5), .num (.fin 7)⟩).calls).map
        (fun ep => ep.translate.elems) = [[.num (.fin 5), .num (.fin 7)]]
    ∧ (request scenarioOverwriting
        ⟨.undefined, .undefined, .num (.fin 5), .num (.fin 7)⟩).ret = .normal true :=
  request_delta_uses_recorded_start scenarioOverwriting overwritingHandlers
    ⟨.own 3, [.num (.fin 0), .num (.fin 0)]⟩ (.num (.fin 0)) (.num (.fin 0))
    ⟨.undefined, .undefined, .num (.fin 5), .num (.fin 7)⟩
    rfl rfl rfl rfl rfl (Or.inl rfl) (by decide) (by decide)

/-- The calls and the return value of the replay do not depend on the bounds field. -/
theorem requestReplay_bounds (c : Controller) (b1 b2 : Option Sides) (t : Arr) :
    (requestReplay { c with bounds := b1 } t).calls
        = (requestReplay { c with bounds := b2 } t).calls
    ∧ (requestReplay { c with bounds := b1 } t).ret
        = (requestReplay { c with bounds := b2 } t).ret := by
  rcases Option.eq_none_or_eq_some c.handlers with hh | ⟨h, hh⟩
  · simp [requestReplay, bump, hh]
  · obtain ⟨c1, r1, -, -⟩ := requestReplay_calls { c with bounds := b1 } h t hh
    obtain ⟨c2, r2, -, -⟩ := requestReplay_calls { c with bounds := b2 } h t hh
    rw [c1, c2, r1, r2]
    exact ⟨rfl, rfl⟩

/-- The translates that a request with an absolute pair reports. -/
theorem request_absolute_payloads (c : Controller) (h : Handlers) (p : DraggableParameter)
    (hh : c.handlers = some h) (hx : p.x ≠ .undefined) (hy : p.y ≠ .undefined) :
    (dragPayloads (request c p).calls).map (fun dp => dp.translate.elems)
        = (if h.drag then [[p.x, p.y]] else [])
    ∧ (endPayloads (request c p).calls).map (fun ep => ep.translate.elems)
        = (if h.dragEnd then [[p.x, p.y]] else [])
    ∧ (request c p).ret = .normal true := by
  have hb : (bump c).handlers = some h := by simpa [bump] using hh
  obtain ⟨hc, hr, -, -⟩ := requestReplay_calls (bump c) h (newArr c [p.x, p.y]) hb
  rw [request_absolute c p hx hy, hc, hr]
  refine ⟨?_, ?_, rfl⟩
  · cases hs : h.dragStart <;> cases hd : h.drag <;> cases he : h.dragEnd <;>
      simp [dragPayloads, newArr, bump, Arr.at_zero, Arr.at_one]
  · cases hs : h.dragStart <;> cases hd : h.drag <;> cases he : h.dragEnd <;>
      simp [endPayloads, newArr, bump, Arr.at_zero, Arr.at_one]

/-- C12: `request` performs no bounds checking. For two controllers that differ only in
the bounds field (whatever it holds, undefined included) and a parameter with `x` and `y`
defined, `request` makes the same calls with the same payloads and returns the same
value; with a `drag` callback registered it is invoked with the translate `[x, y]`,
whatever the bounds are. -/
theorem request_ignores_bounds (c : Controller) (b1 b2 : Option Sides)
    (p : DraggableParameter) (hx : p.x ≠ .undefined) (hy : p.y ≠ .undefined) :
    (request { c with bounds := b1 } p).calls = (request { c with bounds := b2 } p).calls
    ∧ (request { c with bounds := b1 } p).ret = (request { c with bounds := b2 } p).ret
    ∧ (∀ h : Handlers, c.handlers = some h → h.drag = true →
        (dragPayloads (request { c with bounds := b1 } p).calls).map
          (fun dp => dp.translate.elems) = [[p.x, p.y]]) := by
  refine ⟨?_, ?_, ?_⟩
  · rw [request_absolute _ p hx hy, request_absolute _ p hx hy]
    exact (requestReplay_bounds (bump c) b1 b2 (newArr c [p.x, p.y])).1
  · rw [request_absolute _ p hx hy, request_absolute _ p hx hy]
    exact (requestReplay_bounds (bump c) b1 b2 (newArr c [p.x, p.y])).2
  · intro h hh hd
    have := (request_absolute_payloads { c with bounds := b1 } h p hh hx hy).1
    simpa [hd] using this

/-- Witness of C12: the scenario with the bounds `{right: 100}` resolved and with the
bounds field undefined, and the position (500, 0), past the right bound. -/
theorem request_ignores_bounds_witness :
    (request { scenarioIdle with bounds := some (parseBounds scenarioOptions.bounds) }
        ⟨.num (.fin 500), .num (.fin 0), .undefined, .undefined⟩).calls
      = (request { scenarioIdle with bounds := none }
        ⟨.num (.fin 500), .num (.fin 0), .undefined, .undefined⟩).calls
    ∧ (request { scenarioIdle with bounds := some (parseBounds scenarioOptions.bounds) }
        ⟨.num (.fin 500), .num (.fin 0), .undefined, .undefined⟩).ret
      = (request { scenarioIdle with bounds := none }
        ⟨.num (.fin 500), .num (.fin 0), .undefined, .undefined⟩).ret
    ∧ (dragPayloads
        (request { scenarioIdle with bounds := some (parseBounds scenarioOptions.bounds) }
          ⟨.num (.fin 500), .num (.fin 0), .undefined, .undefined⟩).calls).map
        (fun dp => dp.translate.elems) = [[.num (.fin 500), .num (.fin 0)]] :=
  ⟨(request_ignores_bounds scenarioIdle (some (parseBounds scenarioOptions.bounds)) none
      ⟨.num (.fin 500), .num (.fin 0), .undefined, .undefined⟩ (by decide) (by decide)).1,
   (request_ignores_bounds scenarioIdle (some (parseBounds scenarioOptions.bounds)) none
      ⟨.num (.fin 500), .num (.fin 0), .undefined, .undefined⟩ (by decide) (by decide)).2.1,
   (request_ignores_bounds scenarioIdle (some (parseBounds scenarioOptions.bounds)) none
      ⟨.num (.fin 500), .num (.fin 0), .undefined, .undefined⟩ (by decide) (by decide)).2.2
      scenarioHandlers rfl rfl⟩

/-- C20: a parameter with `x` and `y` defined. `request` uses the absolute pair: its
whole outcome is the same whatever `deltaX` and `deltaY` hold and whatever start
translate is stored, and the translate it reports to the `drag` and `dragEnd` callbacks
is `[x, y]`. The delta pair can only matter when `x` or `y` is undefined. -/
theorem request_prefers_absolute (c : Controller) (x y dX dY dX2 dY2 : Val)
    (s2 : Option Arr) (hx : x ≠ .undefined) (hy : y ≠ .undefined) :
    request { c with store := { c.store with startTranslate := s2 } } ⟨x, y, dX2, dY2⟩
        = request c ⟨x, y, dX, dY⟩
    ∧ (∀ h : Handlers, c.handlers = some h → h.drag = true → h.dragEnd = true →
        (dragPayloads (request c ⟨x, y, dX, dY⟩).calls).map (fun dp => dp.translate.elems)
            = [[x, y]]
        ∧ (endPayloads (request c ⟨x, y, dX, dY⟩).calls).map (fun ep => ep.translate.elems)
            = [[x, y]]
        ∧ (request c ⟨x, y, dX, dY⟩).ret = .normal true) := by
  refine ⟨?_, ?_⟩
  · rw [request_absolute _ ⟨x, y, dX2, dY2⟩ hx hy, request_absolute c ⟨x, y, dX, dY⟩ hx hy]
    simp [requestReplay, bump, newArr]
  · intro h hh hd he
    have := request_absolute_payloads c h ⟨x, y, dX, dY⟩ hh hx hy
    simpa [hd, he] using this

/-- Witness of C20: the scenario after the press, the absolute pair (3, 4) with the
delta pair (5, 7), against the delta pair (50, 70) and a stored start translate
`[9, 9]`. -/
theorem request_prefers_absolute_witness :
    request { scenarioPressed with store :=
          { scenarioPressed.store with
              startTranslate := some ⟨.host 2, [.num (.fin 9), .num (.fin 9)]⟩ } }
        ⟨.num (.fin 3), .num (.fin 4), .num (.fin 50), .num (.fin 70)⟩
      = request scenarioPressed ⟨.num (.fin 3), .num (.fin 4), .num (.fin 5), .num (.fin 7)⟩
    ∧ (dragPayloads (request scenarioPressed
          ⟨.num (.fin 3), .num (.fin 4), .num (.fin 5), .num (.fin 7)⟩).calls).map
        (fun dp => dp.translate.elems) = [[.num (.fin 3), .num (.fin 4)]]
    ∧ (endPayloads (request scenarioPressed
          ⟨.num (.fin 3), .num (.fin 4), .num (.fin 5), .num (.fin 7)⟩).calls).map
        (fun ep => ep.translate.elems) = [[.num (.fin 3), .num (.fin 4)]]
    ∧ (request scenarioPressed
          ⟨.num (.fin 3), .num (.fin 4), .num (.fin 5), .num (.fin 7)⟩).ret = .normal true :=
  ⟨(request_prefers_absolute scenarioPressed (.num (.fin 3)) (.num (.fin 4))
      (.num (.fin 5)) (.num (.fin 7)) (.num (.fin 50)) (.num (.fin 70))
      (some ⟨.host 2, [.num (.fin 9), .num (.fin 9)]⟩) (by decide) (by decide)).1,
   (request_prefers_absolute scenarioPressed (.num (.fin 3)) (.num (.fin 4))
      (.num (.fin 5)) (.num (.fin 7)) (.num (.fin 50)) (.num (.fin 70))
      (some ⟨.host 2, [.num (.fin 9), .num (.fin 9)]⟩) (by decide) (by decide)).2
      scenarioHandlers rfl rfl rfl⟩

/-! ## Default suppression -/

/-- C18: every call of `drag` suppresses the default behaviour of the event exactly once,
as its first effect: `preventDefault` on the event heads the calls and does not occur
again, whatever the state is, whether a side is violated, none is, or the call throws. -/
theorem drag_prevents_default_first (c : Controller) (e : MouseEvent) :
    ∃ rest : List Call,
      (drag c e).calls = .preventDefault e :: rest
      ∧ ∀ e2 : MouseEvent, Call.preventDefault e2 ∉ rest := by
  simp only [drag, bump]
  repeat' split
  all_goals simp

/-! ## Exceptions and stale session state -/

/-- C13: on the controller that the constructor leaves for the scenario (bounds option
`{right: 100}`, three callbacks that do not throw), the press returns normally, and then
a release with no move throws (the listener reads index 0 of the unset
`currentTranslate`), and a move throws (`drag` reads `left` of the undefined `bounds`).
With the bounds stored by a direct call of `setBounds`, the release with no move still
throws. -/
theorem fresh_controller_gesture_throws :
    (mousedown scenarioNew (eventAt 10 10) scenarioGeometry).ret = .normal ()
    ∧ (run scenarioNew [.press (eventAt 10 10) scenarioGeometry, .release]).ret = .throw
    ∧ (run scenarioNew [.press (eventAt 10 10) scenarioGeometry, .move (eventAt 30 10)]).ret
        = .throw
    ∧ (run scenarioIdle [.press (eventAt 10 10) scenarioGeometry, .release]).ret = .throw
    ∧ endPayloads (run scenarioIdle [.press (eventAt 10 10) scenarioGeometry, .release]).calls
        = [] := by
  refine ⟨rfl, rfl, rfl, rfl, rfl⟩

/-- C14: on the controller that the constructor leaves for the scenario, before any
gesture or request, `request({deltaX: 5, deltaY: 5})` does not return a boolean: it
throws, reading index 0 of the unset `startTranslate`, and invokes no callback. -/
theorem fresh_controller_delta_request_throws :
    scenarioNew.store.startTranslate = none
    ∧ (request scenarioNew ⟨.undefined, .undefined, .num (.fin 5), .num (.fin 5)⟩).ret
        = .throw
    ∧ (request scenarioNew ⟨.undefined, .undefined, .num (.fin 5), .num (.fin 5)⟩).calls
        = [] := by
  refine ⟨rfl, rfl, rfl⟩

/-- C16: the press does not reset `currentTranslate`. On the scenario controller with its
bounds stored, a first gesture (press at (10, 10), move to (30, 10), release) followed by
a second gesture made of a press and a release reports `[20, 0]` at the second release,
the translate of the first gesture; with the first move to (25, 10) instead, the same
second gesture reports `[15, 0]`. -/
theorem second_gesture_reports_stale_translate :
    (endPayloads
        (run (run scenarioIdle
            [.press (eventAt 10 10) scenarioGeometry, .move (eventAt 30 10), .release]).st
          [.press (eventAt 10 10) scenarioGeometry, .release]).calls).map
        (fun ep => ep.translate.elems) = [[.num (.fin 20), .num (.fin 0)]]
    ∧ (endPayloads
        (run (run scenarioIdle
            [.press (eventAt 10 10) scenarioGeometry, .move (eventAt 25 10), .release]).st
          [.press (eventAt 10 10) scenarioGeometry, .release]).calls).map
        (fun ep => ep.translate.elems) = [[.num (.fin 15), .num (.fin 0)]]
    ∧ (run scenarioIdle
          [.press (eventAt 10 10) scenarioGeometry, .move (eventAt 30 10), .release,
           .press (eventAt 10 10) scenarioGeometry]).st.store.startTranslate
        = some ⟨.own 11, [.num (.fin 0), .num (.fin 0)]⟩ := by
  refine ⟨rfl, rfl, rfl⟩

/-! ## Rounding -/

/-- The bit by bit search keeps at least 54 bits above the shift it returns. -/
theorem Num.topShift_fold (a : Nat) (l : List Nat) (t : Nat) (h : 2 ^ 53 ≤ a >>> t) :
    2 ^ 53 ≤ a >>> (l.foldl (fun t k => if 2 ^ 53 ≤ a >>> (t + k) then t + k else t) t) := by
  induction l generalizing t with
  | nil => simpa using h
  | cons k rest ih =>
    simp only [List.foldl_cons]
    split
    · next hk => exact ih _ hk
    · exact ih _ h

/-- A positive magnitude rounds to a positive magnitude. -/
theorem Num.roundNat_pos (a : Nat) (h : 0 < a) : 0 < Num.roundNat a := by
  have hq : 0 < a >>> Num.dropBits a := by
    unfold Num.dropBits
    split
    · simpa using h
    · next hlt =>
      have h53 : 2 ^ 53 ≤ a >>> 0 := by simpa using Nat.le_of_not_lt hlt
      have ht := Num.topShift_fold a [2048, 1024, 512, 256, 128, 64, 32, 16, 8, 4, 2, 1] 0 h53
      have ht2 : 2 ^ 53 ≤ a >>> Num.topShift a := ht
      rw [Nat.shiftRight_succ]
      omega
  simp only [Num.roundNat, Nat.shiftLeft_eq]
  apply Nat.mul_pos
  · split <;> omega
  · exact Nat.two_pow_pos _

/-- The arithmetic on some known doubles: `2^53 + 1` is `2^53` (a tie, to even),
`2^53 + 3` is `2^53 + 4`, `0.5 + 0.5` is `1`, `0.1 + 0.2` is `0.30000000000000004`,
`1e308 + 1e308` and `1e308 - (-1e308)` are positive infinity, `1e308 - 1e308` is `0`,
and `Infinity - Infinity` is NaN. -/
theorem Num.add_samples :
    Num.add (.fin 9007199254740992) (.fin 1) = .fin 9007199254740992
    ∧ Num.add (.fin 9007199254740992) (.fin 3) = .fin 9007199254740996
    ∧ Num.add (.units (1 <<< 1073 : Nat)) (.units (1 <<< 1073 : Nat)) = .fin 1
    ∧ Num.add (.units (3602879701896397 * ((1 <<< 1019 : Nat) : Int)))
        (.units (3602879701896397 * ((1 <<< 1020 : Nat) : Int)))
        = .units (1351079888211149 * ((1 <<< 1022 : Nat) : Int))
    ∧ Num.add Num.e308 Num.e308 = .posInf
    ∧ Num.sub Num.e308 (Num.neg Num.e308) = .posInf
    ∧ Num.sub Num.e308 Num.e308 = .fin 0
    ∧ Num.sub .posInf .posInf = .nan := by
  refine ⟨rfl, rfl, rfl, rfl, rfl, rfl, rfl, rfl⟩

/-- Rounding never gives NaN. -/
theorem Num.round_ne_nan (n : Int) : Num.round n ≠ .nan := by
  unfold Num.round
  split
  · split <;> simp
  · split <;> simp

/-- Rounding keeps the sign: the rounded number is `>= 0` exactly when the exact one
is. -/
theorem Num.round_ge0 (n : Int) : (Num.round n).ge0 = decide (0 ≤ n) := by
  unfold Num.round
  by_cases hn : n < 0
  · have hpos : 0 < Num.roundNat n.natAbs := Num.roundNat_pos _ (by omega)
    split
    · simp only [hn, if_true, Num.ge0]
      simp
      omega
    · simp only [hn, if_true, Num.ge0]
      simp
      omega
  · split
    · simp only [hn, if_false, Num.ge0]
      simp
      omega
    · simp only [hn, if_false, Num.ge0]
      simp
      omega

/-! ## Unspecified sides -/

/-- Negative infinity minus any number is negative infinity or NaN. -/
theorem Num.negInf_sub (n : Num) : Num.negInf.sub n = .negInf ∨ Num.negInf.sub n = .nan := by
  cases n <;> simp [Num.sub, Num.add, Num.neg]

/-- Any number minus positive infinity is negative infinity or NaN. -/
theorem Num.sub_posInf (n : Num) : n.sub .posInf = .negInf ∨ n.sub .posInf = .nan := by
  cases n <;> simp [Num.sub, Num.add, Num.neg]

/-- The violation scalar of a side that the bounds option omits is negative infinity or
NaN, and it is negative infinity when the shifted edge of that side is finite. -/
theorem violation_omitted_side (o r : Sides) (dx dy : Val) (d : Side)
    (hd : o.get d = .undefined) :
    (toNumber (violation (parseBounds (.obj o)) r dx dy d) = .negInf
      ∨ toNumber (violation (parseBounds (.obj o)) r dx dy d) = .nan)
    ∧ (∀ k : Int, toNumber (shifted r dx dy d) = .units k →
        toNumber (violation (parseBounds (.obj o)) r dx dy d) = .negInf) := by
  cases d <;> simp only [Sides.get] at hd <;>
    simp only [violation, shifted, parseBounds, orEmptyObject, isDefined, hd, jsSub,
      toNumber] <;>
    refine ⟨?_, ?_⟩ <;>
    first
    | exact Num.negInf_sub _
    | exact Num.sub_posInf _
    | (intro k hk
       simp [hk, toNumber, Num.sub, Num.add, Num.neg])

/-- Negative infinity and NaN are not `>= 0`. -/
theorem Num.ge0_of_negInf_or_nan (n : Num) (h : n = .negInf ∨ n = .nan) : n.ge0 = false := by
  rcases h with h | h <;> simp [h, Num.ge0]

/-- C17, counterexample: the option `{}` omits the right side, the start rectangle is
finite (right edge 50) and so are the press at page x `-1e308` and the move to page x
`1e308`; the delta overflows to positive infinity, and the violation scalar of the right
side is `Infinity + 50 - Infinity`, NaN, which is not negative. -/
theorem omitted_side_scalar_not_negative :
    jsSub (.num Num.e308) (.num (Num.neg Num.e308)) = .num .posInf
    ∧ toNumber (violation (parseBounds (.obj emptyObject))
        ⟨.num (.fin 0), .num (.fin 0), .num (.fin 50), .num (.fin 20)⟩
        (jsSub (.num Num.e308) (.num (Num.neg Num.e308)))
        (jsSub (.num (.fin 10)) (.num (.fin 10))) .right) = .nan
    ∧ (toNumber (violation (parseBounds (.obj emptyObject))
        ⟨.num (.fin 0), .num (.fin 0), .num (.fin 50), .num (.fin 20)⟩
        (jsSub (.num Num.e308) (.num (Num.neg Num.e308)))
        (jsSub (.num (.fin 10)) (.num (.fin 10))) .right)).lt0 = false := by
  refine ⟨rfl, rfl, rfl⟩

/-- C17, amended: a side that the bounds option omits never triggers a clamp. For bounds
`parseBounds` of an option `o` that omits the side `d`, and every start rectangle and
move delta, the violation scalar of `d` is negative infinity or NaN, so it is never
`>= 0`, and it is negative infinity whenever the shifted edge of that side is finite.
Hence on a controller in a gesture whose bounds are `parseBounds({})`, with the `drag`
callback registered, every move calls `preventDefault`, invokes the `drag` callback and
makes no call of `bound`. -/
theorem omitted_side_never_violates (o r0 : Sides) (dx0 dy0 : Val) (d : Side)
    (c : Controller) (h : Handlers) (r : Sides) (sT sM : Arr) (e : MouseEvent)
    (hd : o.get d = .undefined)
    (hh : c.handlers = some h) (hdr : h.drag = true)
    (hb : c.bounds = some (parseBounds (.obj emptyObject)))
    (hr : c.store.startElement = some r)
    (hsT : c.store.startTranslate = some sT) (hsM : c.store.startMouse = some sM) :
    (toNumber (violation (parseBounds (.obj o)) r0 dx0 dy0 d) = .negInf
      ∨ toNumber (violation (parseBounds (.obj o)) r0 dx0 dy0 d) = .nan)
    ∧ (toNumber (violation (parseBounds (.obj o)) r0 dx0 dy0 d)).ge0 = false
    ∧ (∀ k : Int, toNumber (shifted r0 dx0 dy0 d) = .units k →
        (toNumber (violation (parseBounds (.obj o)) r0 dx0 dy0 d)).lt0 = true)
    ∧ ∃ dp : DragPayload,
        (drag c e).calls = [.preventDefault e, .drag dp]
        ∧ ∀ (d2 : Side) (v : Val), Call.bound d2 v ∉ (drag c e).calls := by
  obtain ⟨v1, v2⟩ := violation_omitted_side o r0 dx0 dy0 d hd
  refine ⟨v1, Num.ge0_of_negInf_or_nan _ v1, ?_, ?_⟩
  · intro k hk
    rw [v2 k hk]
    rfl
  · have hall : ∀ d2 : Side,
        (toNumber (violation (parseBounds (.obj emptyObject)) r
          (jsSub (.num e.pageX) (sM.at 0)) (jsSub (.num e.pageY) (sM.at 1)) d2)).ge0
          = false := by
      intro d2
      apply Num.ge0_of_negInf_or_nan
      apply (violation_omitted_side emptyObject r _ _ d2 _).1
      cases d2 <;> rfl
    have hloop := (boundLoop_entries _).2.2 hall
    obtain ⟨k1, -, -⟩ := drag_inside c h (parseBounds (.obj emptyObject)) r sT sM e
      hh hdr hb hr hsT hsM hloop
    refine ⟨_, k1, ?_⟩
    intro d2 v
    rw [k1]
    simp

/-- Witness of C17, amended: the option `{right: 100}` omits the left side, whose scalar
for the move from (10, 10) to (70, 10) is negative; and the controller with the bounds
`parseBounds({})`, pressed at page x `-1e308`, lets the move to page x `1e308` through
although the delta overflows. -/
theorem omitted_side_never_violates_witness :
    (toNumber (violation (parseBounds scenarioOptions.bounds)
        ⟨.num (.fin 0), .num (.fin 0), .num (.fin 50), .num (.fin 20)⟩
        (jsSub (.num (.fin 70)) (.num (.fin 10))) (jsSub (.num (.fin 10)) (.num (.fin 10)))
        .left)).lt0 = true
    ∧ ∃ dp : DragPayload,
        (drag scenarioFarPressed (eventAtNum Num.e308 (.fin 10))).calls
          = [.preventDefault (eventAtNum Num.e308 (.fin 10)), .drag dp]
        ∧ ∀ (d2 : Side) (v : Val),
            Call.bound d2 v ∉ (drag scenarioFarPressed (eventAtNum Num.e308 (.fin 10))).calls :=
  ⟨(omitted_side_never_violates ⟨.undefined, .undefined, .num (.fin 100), .undefined⟩
      ⟨.num (.fin 0), .num (.fin 0), .num (.fin 50), .num (.fin 20)⟩
      (jsSub (.num (.fin 70)) (.num (.fin 10))) (jsSub (.num (.fin 10)) (.num (.fin 10)))
      .left scenarioFarPressed scenarioHandlers
      ⟨.num (.fin 0), .num (.fin 0), .num (.fin 50), .num (.fin 20)⟩
      ⟨.own 3, [.num (.fin 0), .num (.fin 0)]⟩
      ⟨.own 1, [.num (Num.neg Num.e308), .num (.fin 10)]⟩
      (eventAtNum Num.e308 (.fin 10)) rfl rfl rfl rfl rfl rfl rfl).2.2.1
      (60 * ((1 <<< 1074 : Nat) : Int)) rfl,
   (omitted_side_never_violates ⟨.undefined, .undefined, .num (.fin 100), .undefined⟩
      ⟨.num (.fin 0), .num (.fin 0), .num (.fin 50), .num (.fin 20)⟩
      (jsSub (.num (.fin 70)) (.num (.fin 10))) (jsSub (.num (.fin 10)) (.num (.fin 10)))
      .left scenarioFarPressed scenarioHandlers
      ⟨.num (.fin 0), .num (.fin 0), .num (.fin 50), .num (.fin 20)⟩
      ⟨.own 3, [.num (.fin 0), .num (.fin 0)]⟩
      ⟨.own 1, [.num (Num.neg Num.e308), .num (.fin 10)]⟩
      (eventAtNum Num.e308 (.fin 10)) rfl rfl rfl rfl rfl rfl rfl).2.2.2⟩

/-! ## Strict insideness -/

/-- A limit minus a finite number is `>= 0` exactly when the limit is not below the
number, for a limit that is not NaN. -/
theorem Num.sub_units_ge0 (n : Num) (k : Int) (hn : n ≠ .nan) :
    (n.sub (.units k)).ge0 = !(n.lt (.units k)) := by
  cases n with
  | nan => exact absurd rfl hn
  | posInf => simp [Num.sub, Num.add, Num.neg, Num.ge0, Num.lt]
  | negInf => simp [Num.sub, Num.add, Num.neg, Num.ge0, Num.lt]
  | units j =>
    simp only [Num.sub, Num.add, Num.neg, Num.round_ge0, Num.lt]
    by_cases hlt : j < k
    · simp [hlt]
    · simp [hlt]
      omega

/-- A finite number minus a limit is `>= 0` exactly when the number is not below the
limit, for a limit that is not NaN. -/
theorem Num.units_sub_ge0 (n : Num) (k : Int) (hn : n ≠ .nan) :
    ((Num.units k).sub n).ge0 = !((Num.units k).lt n) := by
  cases n with
  | nan => exact absurd rfl hn
  | posInf => simp [Num.sub, Num.add, Num.neg, Num.ge0, Num.lt]
  | negInf => simp [Num.sub, Num.add, Num.neg, Num.ge0, Num.lt]
  | units j =>
    simp only [Num.sub, Num.add, Num.neg, Num.round_ge0, Num.lt]
    by_cases hlt : k < j
    · simp [hlt]
    · simp [hlt]
      omega

/-- The four violation tests of `drag` against the four strict comparisons, for bounds
that are not NaN and finite shifted edges. -/
theorem violation_ge0_finite (b r : Sides) (dx dy : Val)
    (hbn : ∀ d : Side, toNumber (b.get d) ≠ .nan)
    (hfin : ∀ d : Side, ∃ k : Int, toNumber (shifted r dx dy d) = .units k) :
    (toNumber (violation b r dx dy .left)).ge0 = !(jsLt b.left (jsAdd r.left dx))
    ∧ (toNumber (violation b r dx dy .top)).ge0 = !(jsLt b.top (jsAdd r.top dy))
    ∧ (toNumber (violation b r dx dy .right)).ge0 = !(jsLt (jsAdd r.right dx) b.right)
    ∧ (toNumber (violation b r dx dy .bottom)).ge0
        = !(jsLt (jsAdd r.bottom dy) b.bottom) := by
  obtain ⟨kl, hl⟩ := hfin .left
  obtain ⟨kt, ht⟩ := hfin .top
  obtain ⟨kr, hr⟩ := hfin .right
  obtain ⟨kb, hb⟩ := hfin .bottom
  simp only [shifted] at hl ht hr hb
  refine ⟨?_, ?_, ?_, ?_⟩
  · rw [jsAdd_comm r.left dx]
    show ((toNumber b.left).sub (toNumber (jsAdd dx r.left))).ge0
      = !((toNumber b.left).lt (toNumber (jsAdd dx r.left)))
    rw [hl]
    exact Num.sub_units_ge0 _ kl (hbn .left)
  · rw [jsAdd_comm r.top dy]
    show ((toNumber b.top).sub (toNumber (jsAdd dy r.top))).ge0
      = !((toNumber b.top).lt (toNumber (jsAdd dy r.top)))
    rw [ht]
    exact Num.sub_units_ge0 _ kt (hbn .top)
  · rw [jsAdd_comm r.right dx]
    show ((toNumber (jsAdd dx r.right)).sub (toNumber b.right)).ge0
      = !((toNumber (jsAdd dx r.right)).lt (toNumber b.right))
    rw [hr]
    exact Num.units_sub_ge0 _ kr (hbn .right)
  · rw [jsAdd_comm r.bottom dy]
    show ((toNumber (jsAdd dy r.bottom)).sub (toNumber b.bottom)).ge0
      = !((toNumber (jsAdd dy r.bottom)).lt (toNumber b.bottom))
    rw [hb]
    exact Num.units_sub_ge0 _ kb (hbn .bottom)

/-- C19, counterexample: with the bounds `{right: NaN}` resolved, the right scalar of the
move from (10, 10) to (30, 10) is NaN, `drag` invokes the callback, and the shifted
rectangle is not strictly inside (`70 < NaN` is false). With the bounds `parseBounds({})`
and the press at page x `-1e308`, the move to page x `1e308` overflows the shifted right
edge to the infinite limit: `drag` invokes the callback, and `Infinity < Infinity` is
false. -/
theorem callback_without_strict_insideness :
    scenarioNaNBound.bounds = some ⟨.num .negInf, .num .negInf, .num .nan, .num .posInf⟩
    ∧ (∃ dp : DragPayload, dragPayloads (drag scenarioNaNBound (eventAt 30 10)).calls = [dp])
    ∧ strictlyInside ⟨.num .negInf, .num .negInf, .num .nan, .num .posInf⟩
        ⟨.num (.fin 0), .num (.fin 0), .num (.fin 50), .num (.fin 20)⟩
        (jsSub (.num (.fin 30)) (.num (.fin 10))) (jsSub (.num (.fin 10)) (.num (.fin 10)))
        = false
    ∧ (∃ dp : DragPayload,
        dragPayloads (drag scenarioFarPressed (eventAtNum Num.e308 (.fin 10))).calls = [dp])
    ∧ strictlyInside (parseBounds (.obj emptyObject))
        ⟨.num (.fin 0), .num (.fin 0), .num (.fin 50), .num (.fin 20)⟩
        (jsSub (.num Num.e308) (.num (Num.neg Num.e308)))
        (jsSub (.num (.fin 10)) (.num (.fin 10)))
        = false
    ∧ ¬ ((∃ dp : DragPayload,
          dragPayloads (drag scenarioNaNBound (eventAt 30 10)).calls = [dp])
        ↔ strictlyInside ⟨.num .negInf, .num .negInf, .num .nan, .num .posInf⟩
            ⟨.num (.fin 0), .num (.fin 0), .num (.fin 50), .num (.fin 20)⟩
            (jsSub (.num (.fin 30)) (.num (.fin 10)))
            (jsSub (.num (.fin 10)) (.num (.fin 10))) = true) := by
  refine ⟨rfl, ⟨_, rfl⟩, rfl, ⟨_, rfl⟩, rfl, ?_⟩
  intro hiff
  have hin := hiff.mp ⟨_, rfl⟩
  exact absurd hin (by decide)

/-- C19, amended: a controller in a gesture with resolved bounds `b` whose sides are not
NaN and a registered `drag` callback, and a move for which the four shifted edges of the
start rectangle are finite. `drag` invokes the callback (once) if and only if the shifted
rectangle lies strictly inside the bounds on all four sides; otherwise, and so for a
rectangle that touches a limit, the callback is not invoked. -/
theorem drag_invokes_iff_strictly_inside (c : Controller) (h : Handlers) (b r : Sides)
    (sT sM : Arr) (e : MouseEvent)
    (hh : c.handlers = some h) (hdr : h.drag = true) (hb : c.bounds = some b)
    (hbn : ∀ d : Side, toNumber (b.get d) ≠ .nan)
    (hr : c.store.startElement = some r)
    (hsT : c.store.startTranslate = some sT) (hsM : c.store.startMouse = some sM)
    (hfin : ∀ d : Side, ∃ k : Int,
      toNumber (shifted r (jsSub (.num e.pageX) (sM.at 0)) (jsSub (.num e.pageY) (sM.at 1)) d)
        = .units k) :
    ((∃ dp : DragPayload, dragPayloads (drag c e).calls = [dp])
      ↔ strictlyInside b r (jsSub (.num e.pageX) (sM.at 0)) (jsSub (.num e.pageY) (sM.at 1))
          = true)
    ∧ (strictlyInside b r (jsSub (.num e.pageX) (sM.at 0)) (jsSub (.num e.pageY) (sM.at 1))
          = false
        → dragPayloads (drag c e).calls = []) := by
  obtain ⟨v1, v2, v3, v4⟩ := violation_ge0_finite b r
    (jsSub (.num e.pageX) (sM.at 0)) (jsSub (.num e.pageY) (sM.at 1)) hbn hfin
  obtain ⟨hsome, hnone, -⟩ := boundLoop_entries
    (violation b r (jsSub (.num e.pageX) (sM.at 0)) (jsSub (.num e.pageY) (sM.at 1)))
  cases hloop : boundLoop (entries
      ⟨violation b r (jsSub (.num e.pageX) (sM.at 0)) (jsSub (.num e.pageY) (sM.at 1)) .left,
       violation b r (jsSub (.num e.pageX) (sM.at 0)) (jsSub (.num e.pageY) (sM.at 1)) .top,
       violation b r (jsSub (.num e.pageX) (sM.at 0)) (jsSub (.num e.pageY) (sM.at 1)) .right,
       violation b r (jsSub (.num e.pageX) (sM.at 0)) (jsSub (.num e.pageY) (sM.at 1))
         .bottom⟩) with
  | none =>
    have hge := hnone hloop
    have i1 := hge .left
    have i2 := hge .top
    have i3 := hge .right
    have i4 := hge .bottom
    rw [v1] at i1
    rw [v2] at i2
    rw [v3] at i3
    rw [v4] at i4
    have hin : strictlyInside b r (jsSub (.num e.pageX) (sM.at 0))
        (jsSub (.num e.pageY) (sM.at 1)) = true := by
      simp only [Bool.not_eq_false'] at i1 i2 i3 i4
      simp [strictlyInside, i1, i2, i3, i4]
    obtain ⟨k1, -, -⟩ := drag_inside c h b r sT sM e hh hdr hb hr hsT hsM hloop
    refine ⟨⟨fun _ => hin, fun _ => ?_⟩, ?_⟩
    · rw [k1]
      exact ⟨_, rfl⟩
    · intro hout
      rw [hin] at hout
      exact absurd hout (by simp)
  | some dv =>
    obtain ⟨d, value⟩ := dv
    obtain ⟨-, h2, -⟩ := hsome d value hloop
    have hout : strictlyInside b r (jsSub (.num e.pageX) (sM.at 0))
        (jsSub (.num e.pageY) (sM.at 1)) = false := by
      cases d
      · rw [v1] at h2
        simp only [Bool.not_eq_true'] at h2
        simp [strictlyInside, h2]
      · rw [v2] at h2
        simp only [Bool.not_eq_true'] at h2
        simp [strictlyInside, h2]
      · rw [v3] at h2
        simp only [Bool.not_eq_true'] at h2
        simp [strictlyInside, h2]
      · rw [v4] at h2
        simp only [Bool.not_eq_true'] at h2
        simp [strictlyInside, h2]
    obtain ⟨k1, -, -⟩ := drag_bound c b r sT sM e d value hb hr hsT hsM hloop
    have hnil : dragPayloads (drag c e).calls = [] := by
      rw [k1]
      rfl
    refine ⟨⟨fun hex => ?_, fun hin => ?_⟩, fun _ => hnil⟩
    · obtain ⟨dp, hdp⟩ := hex
      rw [hnil] at hdp
      exact absurd hdp (by simp)
    · rw [hout] at hin
      exact absurd hin (by simp)

/-- Witness of C19, amended: the scenario after the press. The move to (30, 10) is
strictly inside and invokes the callback; the move to (60, 10) makes the right edge touch
the limit 100 and is suppressed. -/
theorem drag_invokes_iff_strictly_inside_witness :
    (∃ dp : DragPayload, dragPayloads (drag scenarioPressed (eventAt 30 10)).calls = [dp])
    ∧ strictlyInside ⟨.num .negInf, .num .negInf, .num (.fin 100), .num .posInf⟩
        ⟨.num (.fin 0), .num (.fin 0), .num (.fin 50), .num (.fin 20)⟩
        (jsSub (.num (.fin 60)) (.num (.fin 10))) (jsSub (.num (.fin 10)) (.num (.fin 10)))
        = false
    ∧ dragPayloads (drag scenarioPressed (eventAt 60 10)).calls = [] :=
  ⟨(drag_invokes_iff_strictly_inside scenarioPressed scenarioHandlers
      ⟨.num .negInf, .num .negInf, .num (.fin 100), .num .posInf⟩
      ⟨.num (.fin 0), .num (.fin 0), .num (.fin 50), .num (.fin 20)⟩
      ⟨.own 3, [.num (.fin 0), .num (.fin 0)]⟩ ⟨.own 1, [.num (.fin 10), .num (.fin 10)]⟩
      (eventAt 30 10) rfl rfl rfl (fun d => by cases d <;> decide) rfl rfl rfl
      (fun d => by cases d <;> exact ⟨_, rfl⟩)).1.mpr rfl,
   rfl,
   (drag_invokes_iff_strictly_inside scenarioPressed scenarioHandlers
      ⟨.num .negInf, .num .negInf, .num (.fin 100), .num .posInf⟩
      ⟨.num (.fin 0), .num (.fin 0), .num (.fin 50), .num (.fin 20)⟩
      ⟨.own 3, [.num (.fin 0), .num (.fin 0)]⟩ ⟨.own 1, [.num (.fin 10), .num (.fin 10)]⟩
      (eventAt 60 10) rfl rfl rfl (fun d => by cases d <;> decide) rfl rfl rfl
      (fun d => by cases d <;> exact ⟨_, rfl⟩)).2 rfl⟩

/-! ## Subscription and the dragging flag -/

/-- C15: on the controller that the constructor leaves for the scenario, a press
followed by `request({x: 1, y: 1})` leaves the move handler subscribed while the dragging
flag is false. The next move is still handed to `drag`, and the release that follows
finds the flag false: it removes no listener and invokes no `dragEnd`, so the move
handler stays subscribed. -/
theorem subscribed_without_dragging :
    (run scenarioNew [.press (eventAt 10 10) scenarioGeometry,
        .request ⟨.num (.fin 1), .num (.fin 1), .undefined, .undefined⟩]).st.moveSubscribed
      = true
    ∧ (run scenarioNew [.press (eventAt 10 10) scenarioGeometry,
        .request ⟨.num (.fin 1), .num (.fin 1), .undefined, .undefined⟩]).st.dragging
      = false
    ∧ (deliver (run scenarioNew [.press (eventAt 10 10) scenarioGeometry,
        .request ⟨.num (.fin 1), .num (.fin 1), .undefined, .undefined⟩]).st
        (.move (eventAt 30 10))).calls = [.preventDefault (eventAt 30 10)]
    ∧ (deliver (run scenarioNew [.press (eventAt 10 10) scenarioGeometry,
        .request ⟨.num (.fin 1), .num (.fin 1), .undefined, .undefined⟩]).st
        .release).calls = []
    ∧ (run scenarioNew [.press (eventAt 10 10) scenarioGeometry,
        .request ⟨.num (.fin 1), .num (.fin 1), .undefined, .undefined⟩,
        .release]).st.moveSubscribed = true
    ∧ ¬ ((run scenarioNew [.press (eventAt 10 10) scenarioGeometry,
          .request ⟨.num (.fin 1), .num (.fin 1), .undefined, .undefined⟩]).st.moveSubscribed
          = true
        ↔ (run scenarioNew [.press (eventAt 10 10) scenarioGeometry,
          .request ⟨.num (.fin 1), .num (.fin 1), .undefined, .undefined⟩]).st.dragging
          = true) := by
  refine ⟨rfl, rfl, rfl, rfl, rfl, ?_⟩
  intro hiff
  have hd := hiff.mp rfl
  exact absurd hd (by decide)

end Draggable
